import Mathlib

/-!
Verification development for the typeorm-dbml-generator repository.

The TypeScript sources are shallowly embedded as Lean definitions: each
class method of the extractor/generator pipeline becomes a pure Lean
function over explicit metadata structures; the in-place mutation of
metadata objects in the source becomes functional record update; the
`Map` objects become association lists with the same insertion-order and
last-write-wins semantics.
-/

namespace TypeormDbml

/-- The single-quote character, code point 39. -/
def qchar : Char := Char.ofNat 39

/-- The double-quote character, code point 34. -/
def dqchar : Char := Char.ofNat 34

def squote : String := String.singleton qchar

def dquote : String := String.singleton dqchar

/-- A backslash, code point 92. -/
def backslashS : String := String.singleton (Char.ofNat 92)

/-- JS `toLowerCase` modelled per character. -/
def toLowerJs (s : String) : String := String.mk (s.data.map Char.toLower)

/-- JS `toUpperCase` modelled per character. -/
def toUpperJs (s : String) : String := String.mk (s.data.map Char.toUpper)

/-- JS `trim` modelled on the character list. -/
def trimJs (s : String) : String :=
  String.mk (((s.data.dropWhile Char.isWhitespace).reverse.dropWhile
    Char.isWhitespace).reverse)

/-- JS `s.includes(c)` for a single character. -/
def containsChar (s : String) (c : Char) : Bool := s.data.contains c

/-- JS `s.endsWith(suffix)`. -/
def endsWithJs (s suffix : String) : Bool := decide (suffix.data <:+ s.data)

/-- JS `str.replace(/['"]/g, '')`: removes every quote character. -/
def stripQuotes (s : String) : String :=
  String.mk (s.data.filter (fun c => !(c == qchar || c == dqchar)))

/-- JS truthiness of an optional string (`undefined` and `''` are falsy). -/
def optTruthy : Option String → Bool
  | some s => !(s == "")
  | none => false

/-- JS `x || d` for an optional string `x`. -/
def orJs (v : Option String) (d : String) : String :=
  match v with
  | some s => if s == "" then d else s
  | none => d

/-- JS truthiness of an optional number (`undefined` and `0` are falsy). -/
def numTruthy : Option Nat → Bool
  | some n => !(n == 0)
  | none => false

/-- JS `s.includes(pat)`. -/
def includesSub (s pat : String) : Bool := decide (pat.data <:+: s.data)

/-- One character of the snake-case expansion `replace(/([A-Z])/g, '_$1')`. -/
def snakeCaseChar (c : Char) : String :=
  if c.isUpper then "_" ++ String.singleton c else String.singleton c

/-- Source `toSnakeCase` as implemented identically in every source class:
`str.replace(/([A-Z])/g, '_$1').toLowerCase().replace(/^_/, '')`. -/
def toSnakeCase (s : String) : String :=
  let expanded := String.join (s.data.map snakeCaseChar)
  let lowered := toLowerJs expanded
  match lowered.data with
  | c :: rest => if c == '_' then String.mk rest else lowered
  | [] => lowered

/-- A character allowed unquoted in a DBML identifier (`[A-Za-z0-9_]`). -/
def isIdentChar (c : Char) : Bool :=
  (c ≥ 'A' && c ≤ 'Z') || (c ≥ 'a' && c ≤ 'z') || (c ≥ '0' && c ≤ '9') || c == '_'

/-- Source `escapeIdentifier`: double-quote when the regex `[^a-zA-Z0-9_]` matches. -/
def escapeIdentifier (s : String) : String :=
  if s.data.all isIdentChar then s else dquote ++ s ++ dquote

/-- Source `escapeNote` (`note.replace(/'/g, "\\'")`): escape every single
quote with a preceding backslash. -/
def escapeNote (note : String) : String :=
  String.mk (note.data.foldr (fun c acc =>
    if c == qchar then Char.ofNat 92 :: c :: acc else c :: acc) [])

/-! ## Metadata structures (src/parser/types.ts and utils/interfaces) -/

structure JoinColumnMetadata where
  name : Option String := none
  referencedColumnName : Option String := none
deriving Repr, DecidableEq

structure JoinTableMetadata where
  name : Option String := none
  joinColumns : List JoinColumnMetadata := []
  inverseJoinColumns : List JoinColumnMetadata := []
deriving Repr, DecidableEq

inductive RelationType where
  | oneToOne
  | manyToOne
  | oneToMany
  | manyToMany
deriving Repr, DecidableEq

structure RelationMetadata where
  propertyName : String
  type : RelationType
  target : String
  inverseSide : Option String := none
  joinColumn : Option JoinColumnMetadata := none
  joinTable : Option JoinTableMetadata := none
  onDelete : Option String := none
  onUpdate : Option String := none
deriving Repr, DecidableEq

structure ColumnMetadata where
  propertyName : String
  columnName : String
  type : String
  isPrimary : Bool := false
  isGenerated : Bool := false
  generationStrategy : Option String := none
  isNullable : Bool := true
  isUnique : Bool := false
  length : Option Nat := none
  precision : Option Nat := none
  scale : Option Nat := none
  default : Option String := none
  enumName : Option String := none
  enumValues : Option (List String) := none
  isArray : Bool := false
  isCreateDate : Bool := false
  isUpdateDate : Bool := false
  isDeleteDate : Bool := false
  isVersion : Bool := false
  comment : Option String := none
deriving Repr, DecidableEq

structure IndexMetadata where
  name : Option String := none
  columns : List String
  isUnique : Bool
  isSpatial : Option Bool := none
  isFulltext : Option Bool := none
  whereClause : Option String := none
  type : Option String := none
deriving Repr, DecidableEq

structure UniqueMetadata where
  name : Option String := none
  columns : List String
deriving Repr, DecidableEq

structure CheckMetadata where
  expression : String
  name : Option String := none
deriving Repr, DecidableEq

structure EnumMetadata where
  name : String
  values : List String
deriving Repr, DecidableEq

structure InheritanceMetadata where
  pattern : String
  discriminatorColumn : Option String := none
  discriminatorValue : Option String := none
deriving Repr, DecidableEq

structure EntityMetadata where
  name : String
  tableName : String
  schema : Option String := none
  columns : List ColumnMetadata := []
  relations : List RelationMetadata := []
  indexes : List IndexMetadata := []
  uniques : List UniqueMetadata := []
  checks : List CheckMetadata := []
  note : Option String := none
  inheritance : Option InheritanceMetadata := none
deriving Repr, DecidableEq

structure DBMLSchema where
  entities : List EntityMetadata
  enums : List EnumMetadata
  joinTables : List EntityMetadata := []
deriving Repr, DecidableEq

/-! ## TypeMapper (src/generator/TypeMapper.ts) -/

namespace TypeMapper

/-- The `typeMap` object literal of `getBaseType`, in source order.  The
JS object has the key `number` twice; object-literal semantics keep the
last occurrence, which the lookup below reproduces. -/
def typeMapEntries : List (String × String) := [
  ("varchar", "varchar"),
  ("character varying", "varchar"),
  ("char", "char"),
  ("character", "char"),
  ("text", "text"),
  ("string", "varchar"),
  ("int", "integer"),
  ("integer", "integer"),
  ("int2", "smallint"),
  ("int4", "integer"),
  ("int8", "bigint"),
  ("smallint", "smallint"),
  ("bigint", "bigint"),
  ("decimal", "decimal"),
  ("numeric", "numeric"),
  ("real", "real"),
  ("float", "float"),
  ("float4", "real"),
  ("float8", "double precision"),
  ("double", "double precision"),
  ("double precision", "double precision"),
  ("money", "money"),
  ("number", "numeric"),
  ("boolean", "boolean"),
  ("bool", "boolean"),
  ("date", "date"),
  ("time", "time"),
  ("time without time zone", "time"),
  ("time with time zone", "timetz"),
  ("timestamp", "timestamp"),
  ("timestamp without time zone", "timestamp"),
  ("timestamp with time zone", "timestamptz"),
  ("timestamptz", "timestamptz"),
  ("datetime", "timestamp"),
  ("interval", "interval"),
  ("uuid", "uuid"),
  ("bytea", "bytea"),
  ("blob", "bytea"),
  ("binary", "bytea"),
  ("varbinary", "bytea"),
  ("json", "json"),
  ("jsonb", "jsonb"),
  ("xml", "xml"),
  ("inet", "inet"),
  ("cidr", "cidr"),
  ("macaddr", "macaddr"),
  ("point", "point"),
  ("line", "line"),
  ("lseg", "lseg"),
  ("box", "box"),
  ("path", "path"),
  ("polygon", "polygon"),
  ("circle", "circle"),
  ("int4range", "int4range"),
  ("int8range", "int8range"),
  ("numrange", "numrange"),
  ("tsrange", "tsrange"),
  ("tstzrange", "tstzrange"),
  ("daterange", "daterange"),
  ("tsvector", "tsvector"),
  ("tsquery", "tsquery"),
  ("bit", "bit"),
  ("varbit", "varbit"),
  ("bit varying", "varbit"),
  ("tinyint", "tinyint"),
  ("mediumint", "mediumint"),
  ("year", "year"),
  ("tinytext", "tinytext"),
  ("mediumtext", "mediumtext"),
  ("longtext", "longtext"),
  ("enum", "enum"),
  ("set", "set"),
  ("nvarchar", "nvarchar"),
  ("nchar", "nchar"),
  ("ntext", "ntext"),
  ("uniqueidentifier", "uuid"),
  ("number", "number"),
  ("varchar2", "varchar2"),
  ("nvarchar2", "nvarchar2"),
  ("clob", "clob"),
  ("nclob", "nclob"),
  ("raw", "raw"),
  ("long", "long")]

/-- Source `getBaseType`: lower-case the token, look it up, unknown tokens pass
through unchanged (`typeMap[type] || type`). -/
def getBaseType (typeormType : String) : String :=
  let t := toLowerJs typeormType
  match (typeMapEntries.reverse.find? (fun e => e.1 == t)) with
  | some e => e.2
  | none => t

/-- Source `supportsLength`: fixed subset of length-bearing types. -/
def supportsLength (type : String) : Bool :=
  ["varchar", "character varying", "char", "character", "nvarchar", "nchar",
   "varchar2", "nvarchar2", "bit", "varbit", "binary", "varbinary"].contains
    (toLowerJs type)

/-- The length/precision suffix appended at the end of `mapType`:
`(length)` when `column.length` is truthy and the type supports length,
else `(precision[,scale])` when precision is present. -/
def sizeSuffix (c : ColumnMetadata) : String :=
  if numTruthy c.length && supportsLength c.type then
    "(" ++ toString (c.length.getD 0) ++ ")"
  else
    match c.precision with
    | some p =>
      match c.scale with
      | some s => "(" ++ toString p ++ "," ++ toString s ++ ")"
      | none => "(" ++ toString p ++ ")"
    | none => ""

/-- Source `mapType`: an enum column returns the enum name immediately; otherwise
the base type gets the `[]` array suffix and then the size suffix. -/
def mapType (c : ColumnMetadata) : String :=
  if optTruthy c.enumName then
    c.enumName.getD ""
  else
    (getBaseType c.type ++ (if c.isArray then "[]" else "")) ++ sizeSuffix c

end TypeMapper

/-! ## RelationGenerator (src/generator/RelationGenerator.ts) -/

namespace RelationGenerator

/-- Source `formatCascadeAction`: fixed map, unknown actions lower-cased. -/
def formatCascadeAction (action : String) : String :=
  if action == "CASCADE" then "cascade"
  else if action == "SET NULL" then "set null"
  else if action == "SET DEFAULT" then "set default"
  else if action == "RESTRICT" then "restrict"
  else if action == "NO ACTION" then "no action"
  else toLowerJs action

/-- Source `generateRelationOptions`: optional `[delete: ..., update: ...]`. -/
def generateRelationOptions (r : RelationMetadata) : Option String :=
  let options : List String :=
    (match r.onDelete with
     | some a => ["delete: " ++ formatCascadeAction a]
     | none => []) ++
    (match r.onUpdate with
     | some a => ["update: " ++ formatCascadeAction a]
     | none => [])
  if options.isEmpty then none
  else some ("[" ++ String.intercalate ", " options ++ "]")

/-- Source `generateManyToOne`: always emits one reference line
`Ref: from.join_column > target.referenced_column [options]`. -/
def generateManyToOne (entity : EntityMetadata) (r : RelationMetadata) : String :=
  let fromTable := entity.tableName
  let toTable := r.target
  let joinColumnName :=
    orJs (r.joinColumn.bind (fun jc => jc.name)) (toSnakeCase r.propertyName ++ "_id")
  let referencedColumnName :=
    orJs (r.joinColumn.bind (fun jc => jc.referencedColumnName)) "id"
  let parts : List String :=
    ["Ref: " ++ escapeIdentifier fromTable ++ "." ++ escapeIdentifier joinColumnName,
     ">",
     escapeIdentifier toTable ++ "." ++ escapeIdentifier referencedColumnName] ++
    (match generateRelationOptions r with
     | some o => [o]
     | none => [])
  String.intercalate " " parts

/-- Source `generateOneToOne`: only the side that has the join column emits. -/
def generateOneToOne (entity : EntityMetadata) (r : RelationMetadata) : Option String :=
  match r.joinColumn with
  | none => none
  | some jc =>
    let fromTable := entity.tableName
    let toTable := r.target
    let joinColumnName := orJs jc.name (toSnakeCase r.propertyName ++ "_id")
    let referencedColumnName := orJs jc.referencedColumnName "id"
    let parts : List String :=
      ["Ref: " ++ escapeIdentifier fromTable ++ "." ++ escapeIdentifier joinColumnName,
       "-",
       escapeIdentifier toTable ++ "." ++ escapeIdentifier referencedColumnName] ++
      (match generateRelationOptions r with
       | some o => [o]
       | none => [])
    some (String.intercalate " " parts)

/-- Source `generateManyToMany`: only the side that has the join table emits; two
references from the join table to each related table. -/
def generateManyToMany (entity : EntityMetadata) (r : RelationMetadata) : Option String :=
  match r.joinTable with
  | none => none
  | some jt =>
    let fromTable := entity.tableName
    let toTable := r.target
    let joinTableName := orJs jt.name (toSnakeCase fromTable ++ "_" ++ toSnakeCase toTable)
    let fromJoinColumn := jt.joinColumns.head?
    let toJoinColumn := jt.inverseJoinColumns.head?
    let fromColumnName :=
      orJs (fromJoinColumn.bind (fun jc => jc.name)) (toSnakeCase fromTable ++ "_id")
    let fromReferencedColumn :=
      orJs (fromJoinColumn.bind (fun jc => jc.referencedColumnName)) "id"
    let toColumnName :=
      orJs (toJoinColumn.bind (fun jc => jc.name)) (toSnakeCase toTable ++ "_id")
    let toReferencedColumn :=
      orJs (toJoinColumn.bind (fun jc => jc.referencedColumnName)) "id"
    let refs : List String :=
      ["Ref: " ++ escapeIdentifier joinTableName ++ "." ++ escapeIdentifier fromColumnName ++
         " > " ++ escapeIdentifier fromTable ++ "." ++ escapeIdentifier fromReferencedColumn,
       "Ref: " ++ escapeIdentifier joinTableName ++ "." ++ escapeIdentifier toColumnName ++
         " > " ++ escapeIdentifier toTable ++ "." ++ escapeIdentifier toReferencedColumn]
    some (String.intercalate "\n" refs)

/-- Source `generateRelation`: dispatch on relation kind; one-to-many never emits. -/
def generateRelation (entity : EntityMetadata) (r : RelationMetadata) : Option String :=
  match r.type with
  | .manyToOne => some (generateManyToOne entity r)
  | .oneToMany => none
  | .oneToOne => generateOneToOne entity r
  | .manyToMany => generateManyToMany entity r

/-- Source `generateRelations`: all emitted references, entity order then
per-entity relation order, joined by newlines. -/
def generateRelations (entities : List EntityMetadata) : String :=
  let refs := entities.foldl
    (fun acc e => acc ++ e.relations.filterMap (generateRelation e)) []
  if refs.length > 0 then String.intercalate "\n" refs else ""

end RelationGenerator

/-! ## MetadataExtractor.resolveRelationships (src/parser/MetadataExtractor.ts) -/

namespace MetadataExtractor

/-- The class-name → table-name lookup map built by pass 2
(`entities.forEach((e) => classToTable.set(e.name, e.tableName))`).
`Map.set` overwrites, so a duplicate class name keeps the last entry. -/
def classToTable (entities : List EntityMetadata) : List (String × String) :=
  entities.map (fun e => (e.name, e.tableName))

/-- Source `Map.get`: the last `set` for a key wins. -/
def mapGetLast (m : List (String × String)) (k : String) : Option String :=
  (m.reverse.find? (fun e => e.1 == k)).map (fun e => e.2)

/-- Pass-2 rewriting of one relation: `if (targetTable)` — the rewrite
happens only when the looked-up table name is truthy, so a missing key
and an empty-string table name both leave the relation untouched. -/
def resolveRelation (m : List (String × String)) (r : RelationMetadata) :
    RelationMetadata :=
  match mapGetLast m r.target with
  | some targetTable =>
    if targetTable == "" then r else { r with target := targetTable }
  | none => r

/-- Source `resolveRelationships`: build the lookup over the whole batch, then
rewrite every relation of every entity. -/
def resolveRelationships (entities : List EntityMetadata) : List EntityMetadata :=
  let m := classToTable entities
  entities.map (fun e => { e with relations := e.relations.map (resolveRelation m) })

end MetadataExtractor

/-! ## Generator options (src/parser/types.ts GeneratorOptions and the
defaults applied in the DBMLGenerator constructor) -/

structure GeneratorOptions where
  includeSchemas : Option Bool := none
  includeIndexes : Option Bool := none
  includeNotes : Option Bool := none
  includeEnums : Option Bool := none
  tableGrouping : Option String := none
  projectName : Option String := none
deriving Repr, DecidableEq

/-- Source `Required<GeneratorOptions>` after the `??` defaults in the
DBMLGenerator constructor. -/
structure ResolvedOptions where
  includeSchemas : Bool
  includeIndexes : Bool
  includeNotes : Bool
  includeEnums : Bool
  tableGrouping : String
  projectName : String
deriving Repr, DecidableEq

/-- The constructor of DBMLGenerator: `options?.x ?? default`. -/
def resolveOptions (o : Option GeneratorOptions) : ResolvedOptions :=
  { includeSchemas := ((o.bind (fun g => g.includeSchemas)).getD true)
    includeIndexes := ((o.bind (fun g => g.includeIndexes)).getD true)
    includeNotes := ((o.bind (fun g => g.includeNotes)).getD true)
    includeEnums := ((o.bind (fun g => g.includeEnums)).getD true)
    tableGrouping := ((o.bind (fun g => g.tableGrouping)).getD "schema")
    projectName := ((o.bind (fun g => g.projectName)).getD "Database Schema") }

/-! ## TableGenerator (src/generator/TableGenerator.ts) -/

namespace TableGenerator

/-- Source `formatDefaultValue`: back-tick function-like defaults, quote string
and enum defaults, lower-case booleans, pass numbers through. -/
def formatDefaultValue (defaultValue : String) (c : ColumnMetadata) : String :=
  if containsChar defaultValue '(' || includesSub (toLowerJs defaultValue) "now" then
    "`" ++ defaultValue ++ "`"
  else if c.type == "varchar" || c.type == "text" || optTruthy c.enumName then
    squote ++ defaultValue ++ squote
  else if c.type == "boolean" then
    toLowerJs defaultValue
  else
    defaultValue

/-- The primary-key pushes of `generateColumnSettings` (both generated
branches and the plain branch push `pk`; only the increment strategy
also pushes `increment`). -/
def pkSettings (c : ColumnMetadata) : List String :=
  if c.isPrimary then
    (if c.isGenerated && c.generationStrategy == some "increment" then
      ["pk", "increment"]
    else ["pk"])
  else []

/-- The `unique` push (suppressed on primary columns). -/
def uniqueSettings (c : ColumnMetadata) : List String :=
  if c.isUnique && !c.isPrimary then ["unique"] else []

/-- The `not null` push. -/
def notNullSettings (c : ColumnMetadata) : List String :=
  if !c.isNullable then ["not null"] else []

/-- The explicit-default push (`column.default !== undefined`). -/
def defaultSettings (c : ColumnMetadata) : List String :=
  match c.default with
  | some d => ["default: " ++ formatDefaultValue d c]
  | none => []

/-- The unconditional `now()` default pushed for create/update-date
columns. -/
def nowDefaultSettings (c : ColumnMetadata) : List String :=
  if c.isCreateDate || c.isUpdateDate then ["default: `now()`"] else []

/-- The note push. -/
def noteSettings (opts : ResolvedOptions) (c : ColumnMetadata) : List String :=
  if opts.includeNotes && optTruthy c.comment then
    ["note: " ++ squote ++ escapeNote (c.comment.getD "") ++ squote]
  else []

/-- The `settings` array assembled by `generateColumnSettings`, in push
order: pk / increment, unique, not null, explicit default, the
unconditional `now()` default for create/update-date columns, note. -/
def columnSettingsList (opts : ResolvedOptions) (c : ColumnMetadata) : List String :=
  pkSettings c ++ uniqueSettings c ++ notNullSettings c ++ defaultSettings c ++
    nowDefaultSettings c ++ noteSettings opts c

/-- Source `generateColumnSettings`: bracketed, comma-separated settings. -/
def generateColumnSettings (opts : ResolvedOptions) (c : ColumnMetadata) : String :=
  let settings := columnSettingsList opts c
  if settings.length > 0 then "[" ++ String.intercalate ", " settings ++ "]" else ""

/-- Source `generateColumn`: name, mapped type, optional settings. -/
def generateColumn (opts : ResolvedOptions) (c : ColumnMetadata) : String :=
  let parts : List String := [escapeIdentifier c.columnName, TypeMapper.mapType c]
  let settings := generateColumnSettings opts c
  let parts := if settings == "" then parts else parts ++ [settings]
  String.intercalate " " parts

/-- Source `generateIndex`: column (or parenthesized list) plus settings. -/
def generateIndex (i : IndexMetadata) : String :=
  let colPart := match i.columns with
    | [c] => escapeIdentifier c
    | cs => "(" ++ String.intercalate ", " (cs.map escapeIdentifier) ++ ")"
  let settings : List String :=
    (if i.isUnique then ["unique"] else []) ++
    (if optTruthy i.name then ["name: " ++ squote ++ i.name.getD "" ++ squote] else []) ++
    (if optTruthy i.type then ["type: " ++ i.type.getD ""] else []) ++
    (if optTruthy i.whereClause then
      ["where: " ++ squote ++ i.whereClause.getD "" ++ squote] else [])
  if settings.length > 0 then
    colPart ++ " [" ++ String.intercalate ", " settings ++ "]"
  else colPart

/-- Source `generateTableDeclaration`: `Table name [schema: "...", note: '...'] \x7b`. -/
def generateTableDeclaration (opts : ResolvedOptions) (e : EntityMetadata) : String :=
  let declaration := "Table " ++ escapeIdentifier e.tableName
  let options : List String :=
    (if opts.includeSchemas && optTruthy e.schema then
      ["schema: " ++ dquote ++ e.schema.getD "" ++ dquote] else []) ++
    (if opts.includeNotes && optTruthy e.note then
      ["note: " ++ squote ++ escapeNote (e.note.getD "") ++ squote] else [])
  let declaration := if options.length > 0 then
      declaration ++ " [" ++ String.intercalate ", " options ++ "]"
    else declaration
  declaration ++ " \x7b"

/-- Source `generateTable`: declaration, indented columns, optional Indexes
block, closing brace. -/
def generateTable (opts : ResolvedOptions) (e : EntityMetadata) : String :=
  let lines : List String :=
    [generateTableDeclaration opts e] ++
    e.columns.map (fun c => "  " ++ generateColumn opts c)
  let lines := if opts.includeIndexes && e.indexes.length > 0 then
      lines ++ [""] ++ ["  Indexes \x7b"] ++
      e.indexes.map (fun i => "    " ++ generateIndex i) ++ ["  \x7d"]
    else lines
  String.intercalate "\n" (lines ++ ["\x7d"])

end TableGenerator

/-! ## DBMLGenerator (src/generator/DBMLGenerator.ts) -/

namespace DBMLGenerator

/-- Source `generateProjectHeader`. -/
def generateProjectHeader (opts : ResolvedOptions) : String :=
  "Project " ++ escapeIdentifier opts.projectName ++ " \x7b\n" ++
  "  database_type: " ++ squote ++ "PostgreSQL" ++ squote ++ "\n" ++
  "  Note: " ++ squote ++ "Generated from TypeORM entities" ++ squote ++ "\n" ++
  "\x7d"

/-- Source `generateEnums`: one `Enum name \x7b ... \x7d` block per enum. -/
def generateEnums (enums : List EnumMetadata) : String :=
  let enumDefs := enums.map (fun em =>
    let values := String.intercalate "\n" (em.values.map (fun v => "  " ++ escapeIdentifier v))
    "Enum " ++ escapeIdentifier em.name ++ " \x7b\n" ++ values ++ "\n\x7d")
  String.intercalate "\n\n" enumDefs

/-- Source `generateTables`: table blocks joined by blank lines. -/
def generateTables (opts : ResolvedOptions) (entities : List EntityMetadata) : String :=
  String.intercalate "\n\n" (entities.map (TableGenerator.generateTable opts))

/-- The `schemaGroups` map of `generateTableGroups`: groups keyed by
schema (default `public`) in first-occurrence order, each holding table
names in input order. -/
def groupBySchema (entities : List EntityMetadata) : List (String × List String) :=
  entities.foldl (fun acc e =>
    let key := orJs e.schema "public"
    if acc.any (fun g => g.1 == key) then
      acc.map (fun g => if g.1 == key then (g.1, g.2 ++ [e.tableName]) else g)
    else
      acc ++ [(key, [e.tableName])]) []

/-- Source `generateTableGroups`: one `TableGroup` block per schema. -/
def generateTableGroups (entities : List EntityMetadata) : String :=
  let groups := (groupBySchema entities).filterMap (fun g =>
    if g.2.length > 0 then
      some ("TableGroup " ++ escapeIdentifier g.1 ++ " \x7b\n" ++
        String.intercalate "\n" (g.2.map (fun t => "  " ++ escapeIdentifier t)) ++
        "\n\x7d")
    else none)
  String.intercalate "\n\n" groups

/-- Source `generate`: assemble the section list — project header, enums,
tables, relationships, table groups — drop blank sections, join with
blank lines. -/
def generate (opts : ResolvedOptions) (schema : DBMLSchema) : String :=
  let sections : List String := []
  let sections := if !(opts.projectName == "") then
      sections ++ [generateProjectHeader opts]
    else sections
  let sections := if opts.includeEnums && schema.enums.length > 0 then
      sections ++ [generateEnums schema.enums]
    else sections
  let tablesSection := generateTables opts schema.entities
  let sections := if !(tablesSection == "") then sections ++ [tablesSection] else sections
  let relationsSection := RelationGenerator.generateRelations schema.entities
  let sections := if !(relationsSection == "") then
      sections ++ [relationsSection]
    else sections
  let sections := if opts.includeSchemas && opts.tableGrouping == "schema" then
      let tableGroupsSection := generateTableGroups schema.entities
      if !(tableGroupsSection == "") then sections ++ [tableGroupsSection] else sections
    else sections
  String.intercalate "\n\n" (sections.filter (fun s => !(trimJs s == "")))

end DBMLGenerator

/-- Source `schemaToDBML` (src/index.ts): construct a generator from the given
options and serialize the schema. -/
def schemaToDBML (schema : DBMLSchema) (options : Option GeneratorOptions) : String :=
  DBMLGenerator.generate (resolveOptions options) schema

/-! ## Input AST: annotated class declarations

The extractors consume ts-morph nodes; the embedding models the node
shapes the extractor code actually inspects: argument kinds
(string/array/object literal, arrow function, anything else), the
property assignments of object literals, the resolved enum symbol of an
initializer (`initializer.getType().getSymbol()`), and `getText()`.  A
composite node carries its own source text, as a ts-morph node does. -/

structure EnumMember where
  name : String
  initText : Option String := none
deriving Repr, DecidableEq

inductive EnumDeclKind where
  | enumDecl (members : List EnumMember)
  | otherDecl
deriving Repr, DecidableEq

structure EnumSymbol where
  name : String
  decls : List EnumDeclKind
deriving Repr, DecidableEq

/-- A decorator-argument (or object-property initializer) expression.
`objLit` props are `(name, initializer, resolved enum symbol)` triples;
only property assignments with initializers are modelled, matching the
`PropertyAssignment`/initializer filters in every extractor loop. -/
inductive TsExpr where
  | strLit (value : String)
  | arrLit (text : String) (elems : List TsExpr)
  | objLit (text : String) (props : List (String × TsExpr × Option EnumSymbol))
  | arrowFn (bodyText : String)
  | other (text : String)
deriving Repr

/-- Source `node.getText()`; a string literal renders with its quotes, composite
nodes return their stored source text. -/
def TsExpr.getText : TsExpr → String
  | .strLit v => squote ++ v ++ squote
  | .arrLit t _ => t
  | .objLit t _ => t
  | .arrowFn b => "() => " ++ b
  | .other t => t

structure Decorator where
  name : String
  args : List TsExpr
deriving Repr

structure PropertyDeclaration where
  name : String
  decorators : List Decorator
  tsTypeText : String := ""
  jsDocComment : Option String := none
deriving Repr

structure ClassDeclaration where
  name : Option String := none
  decorators : List Decorator := []
  properties : List PropertyDeclaration := []
  jsDocComment : Option String := none
deriving Repr

/-! ## ConstraintExtractor (src/extractor/ConstraintExtractor.ts) -/

namespace ConstraintExtractor

/-- Source `extractColumnsFromArray`: string-literal elements, quotes stripped. -/
def extractColumnsFromArray (arg : TsExpr) : List String :=
  match arg with
  | .arrLit _ elems =>
    elems.filterMap (fun e =>
      match e with
      | .strLit _ => some (stripQuotes e.getText)
      | _ => none)
  | _ => []

/-- One case of the `extractIndexOptions` switch: recognized keys are
unique/spatial/fulltext/where/using; a `using` value outside
btree/hash/gist/gin is ignored; every other key (including `columns`)
is ignored. -/
def applyIndexOption (m : IndexMetadata)
    (p : String × TsExpr × Option EnumSymbol) : IndexMetadata :=
  let value := p.2.1.getText
  if p.1 == "unique" then { m with isUnique := value == "true" }
  else if p.1 == "spatial" then { m with isSpatial := some (value == "true") }
  else if p.1 == "fulltext" then { m with isFulltext := some (value == "true") }
  else if p.1 == "where" then { m with whereClause := some (stripQuotes value) }
  else if p.1 == "using" then
    let typeValue := toLowerJs (stripQuotes value)
    if ["btree", "hash", "gist", "gin"].contains typeValue then
      { m with type := some typeValue }
    else m
  else m

/-- Source `extractIndexOptions` applied to the props of an options object. -/
def extractIndexOptions (props : List (String × TsExpr × Option EnumSymbol))
    (m : IndexMetadata) : IndexMetadata :=
  props.foldl applyIndexOption m

/-- Source `extractIndexFromDecorator` (class-level `@Index`): dispatch on the
kind of the first argument; the options-only shape returns immediately,
the other shapes are discarded when the column list is empty. -/
def extractIndexFromDecorator (d : Decorator) : Option IndexMetadata :=
  let m : IndexMetadata := { columns := [], isUnique := false }
  match d.args with
  | [] => none
  | firstArg :: restArgs =>
    match firstArg with
    | .arrLit _ _ =>
      let m := { m with columns := extractColumnsFromArray firstArg }
      let m := match restArgs with
        | .objLit _ props :: _ => extractIndexOptions props m
        | _ => m
      if m.columns.length > 0 then some m else none
    | .strLit _ =>
      let m := { m with name := some (stripQuotes firstArg.getText) }
      match restArgs with
      | secondArg@(.arrLit _ _) :: restArgs2 =>
        let m := { m with columns := extractColumnsFromArray secondArg }
        let m := match restArgs2 with
          | .objLit _ props :: _ => extractIndexOptions props m
          | _ => m
        if m.columns.length > 0 then some m else none
      | .objLit _ props :: _ =>
        let m := extractIndexOptions props m
        if m.columns.length > 0 then some m else none
      | _ => if m.columns.length > 0 then some m else none
    | .objLit _ props =>
      some (extractIndexOptions props m)
    | _ =>
      let m := match firstArg with
        | .objLit _ props => extractIndexOptions props m
        | _ => m
      if m.columns.length > 0 then some m else none

/-- Source `extractIndexFromPropertyDecorator` (property-level `@Index`): the
column list defaults to the snake-cased property name. -/
def extractIndexFromPropertyDecorator (d : Decorator) (propertyName : String) :
    Option IndexMetadata :=
  let m : IndexMetadata := { columns := [toSnakeCase propertyName], isUnique := false }
  let m := d.args.foldl (fun m arg =>
    match arg with
    | .strLit _ => { m with name := some (stripQuotes arg.getText) }
    | .objLit _ props => extractIndexOptions props m
    | _ => m) m
  some m

/-- Source `extractIndexes`: class-level `@Index` decorators, then
property-level ones. -/
def extractIndexes (cls : ClassDeclaration) : List IndexMetadata :=
  (cls.decorators.filterMap (fun d =>
    if d.name == "Index" then extractIndexFromDecorator d else none)) ++
  ((cls.properties.map (fun p =>
    p.decorators.filterMap (fun d =>
      if d.name == "Index" then extractIndexFromPropertyDecorator d p.name
      else none))).flatten)

/-- Source `extractUniqueFromDecorator`. -/
def extractUniqueFromDecorator (d : Decorator) : Option UniqueMetadata :=
  let m : UniqueMetadata := { columns := [] }
  match d.args with
  | [] => none
  | firstArg :: restArgs =>
    let m := match firstArg with
      | .arrLit _ _ => { m with columns := extractColumnsFromArray firstArg }
      | .strLit _ =>
        let m := { m with name := some (stripQuotes firstArg.getText) }
        (match restArgs with
         | secondArg@(.arrLit _ _) :: _ =>
           { m with columns := extractColumnsFromArray secondArg }
         | _ => m)
      | _ => m
    if m.columns.length > 0 then some m else none

def extractUniques (cls : ClassDeclaration) : List UniqueMetadata :=
  cls.decorators.filterMap (fun d =>
    if d.name == "Unique" then extractUniqueFromDecorator d else none)

/-- Source `extractCheckFromDecorator`: the first argument is the expression,
an optional second string literal is the name; empty expressions drop. -/
def extractCheckFromDecorator (d : Decorator) : Option CheckMetadata :=
  match d.args with
  | [] => none
  | firstArg :: restArgs =>
    let expression := stripQuotes firstArg.getText
    let name := match restArgs with
      | secondArg@(.strLit _) :: _ => some (stripQuotes secondArg.getText)
      | _ => none
    if !(expression == "") then some { expression := expression, name := name }
    else none

def extractChecks (cls : ClassDeclaration) : List CheckMetadata :=
  cls.decorators.filterMap (fun d =>
    if d.name == "Check" then extractCheckFromDecorator d else none)

/-- Source `extractConstraints`. -/
def extractConstraints (cls : ClassDeclaration) :
    List IndexMetadata × List UniqueMetadata × List CheckMetadata :=
  (extractIndexes cls, extractUniques cls, extractChecks cls)

end ConstraintExtractor

/-! ## ColumnExtractor (src/extractor/ColumnExtractor.ts) -/

/-- The enum registry: a `Map<string, EnumMetadata>` keyed by the enum
symbol's declared identifier, in insertion order. -/
abbrev EnumsMap := List (String × EnumMetadata)

def EnumsMap.hasKey (m : EnumsMap) (k : String) : Bool :=
  (List.any m (fun e => e.1 == k))

/-- Source `Map.set` on a key known to be absent: append. -/
def EnumsMap.append1 (m : EnumsMap) (k : String) (v : EnumMetadata) : EnumsMap :=
  List.append m [(k, v)]

def EnumsMap.valuesList (m : EnumsMap) : List EnumMetadata :=
  List.map (fun (e : String × EnumMetadata) => e.2) m

namespace ColumnExtractor

def columnDecoratorNames : List String :=
  ["Column", "PrimaryColumn", "PrimaryGeneratedColumn", "CreateDateColumn",
   "UpdateDateColumn", "DeleteDateColumn", "VersionColumn"]

/-- JS `parseInt` on an initializer text, `none` for NaN. -/
def parseIntJs (s : String) : Option Nat :=
  let ds := (trimJs s).data.takeWhile (fun c => c.isDigit)
  if ds.isEmpty then none
  else some (ds.foldl (fun n c => n * 10 + (c.toNat - 48)) 0)

/-- Source `extractEnumMetadata`: resolve the initializer's enum symbol, set
`enumName`/`type` to the snake-cased symbol name, and register the enum
once; values come from member initializers or member names. -/
def extractEnumMetadata (sym : Option EnumSymbol) (m : ColumnMetadata)
    (enumsMap : EnumsMap) : ColumnMetadata × EnumsMap :=
  match sym with
  | none => (m, enumsMap)
  | some sym =>
    let enumName := sym.name
    let m := { m with enumName := some (toSnakeCase enumName),
                      type := toSnakeCase enumName }
    if enumsMap.hasKey enumName then (m, enumsMap)
    else
      match sym.decls with
      | [] => (m, enumsMap)
      | d :: _ =>
        match d with
        | .enumDecl members =>
          let values := members.map (fun mem =>
            match mem.initText with
            | some t => stripQuotes t
            | none => mem.name)
          ({ m with enumValues := some values },
           enumsMap.append1 enumName { name := toSnakeCase enumName, values := values })
        | .otherDecl => (m, enumsMap)

/-- One case of the `extractColumnOptions` switch. -/
def applyColumnOption (acc : ColumnMetadata × EnumsMap)
    (p : String × TsExpr × Option EnumSymbol) : ColumnMetadata × EnumsMap :=
  let m := acc.1
  let enumsMap := acc.2
  let value := p.2.1.getText
  if p.1 == "type" then ({ m with type := stripQuotes value }, enumsMap)
  else if p.1 == "name" then ({ m with columnName := stripQuotes value }, enumsMap)
  else if p.1 == "length" then ({ m with length := parseIntJs value }, enumsMap)
  else if p.1 == "precision" then ({ m with precision := parseIntJs value }, enumsMap)
  else if p.1 == "scale" then ({ m with scale := parseIntJs value }, enumsMap)
  else if p.1 == "nullable" then ({ m with isNullable := value == "true" }, enumsMap)
  else if p.1 == "unique" then ({ m with isUnique := value == "true" }, enumsMap)
  else if p.1 == "default" then ({ m with default := some (stripQuotes value) }, enumsMap)
  else if p.1 == "comment" then ({ m with comment := some (stripQuotes value) }, enumsMap)
  else if p.1 == "array" then ({ m with isArray := value == "true" }, enumsMap)
  else if p.1 == "enum" then extractEnumMetadata p.2.2 m enumsMap
  else (m, enumsMap)

/-- Source `extractColumnOptions` over the props of one options object. -/
def extractColumnOptions (props : List (String × TsExpr × Option EnumSymbol))
    (m : ColumnMetadata) (enumsMap : EnumsMap) : ColumnMetadata × EnumsMap :=
  props.foldl applyColumnOption (m, enumsMap)

/-- The options pass of `extractColumnFromProperty`: every object-literal
argument of the decorator feeds `extractColumnOptions`. -/
def applyOptionArgs (args : List TsExpr) (m : ColumnMetadata)
    (enumsMap : EnumsMap) : ColumnMetadata × EnumsMap :=
  args.foldl (fun acc arg =>
    match arg with
    | .objLit _ props => extractColumnOptions props acc.1 acc.2
    | _ => acc) (m, enumsMap)

/-- One attempted match of the regex `\s*\|\s*(null|undefined)` at the
head of the character list; on success returns the remainder after the
match (the alternation tries `null` first). -/
def matchNullUnion (cs : List Char) : Option (List Char) :=
  let cs1 := cs.dropWhile (fun c => c.isWhitespace)
  match cs1 with
  | c :: cs2 =>
    if c == '|' then
      let cs3 := cs2.dropWhile (fun c => c.isWhitespace)
      if cs3.take 4 == "null".data then some (cs3.drop 4)
      else if cs3.take 9 == "undefined".data then some (cs3.drop 9)
      else none
    else none
  | [] => none

/-- The global replace `tsType.replace(/\s*\|\s*(null|undefined)/g, '')`:
left-to-right scan deleting every match.  A successful match always
consumes at least one character, so fuel equal to the length suffices. -/
def goStripNullUnion : Nat → List Char → List Char
  | 0, cs => cs
  | _ + 1, [] => []
  | fuel + 1, c :: cs =>
    match matchNullUnion (c :: cs) with
    | some rest => goStripNullUnion fuel rest
    | none => c :: goStripNullUnion fuel cs

def stripNullUndefined (s : String) : String :=
  String.mk (goStripNullUnion s.data.length s.data)

/-- Source `inferTypeFromTsType`: strip `| null` / `| undefined` unions and
trim, detect the `[]` array suffix, then the fixed
TypeScript → database map with a json/varchar fallback. -/
def inferTypeFromTsType (tsType0 : String) (m : ColumnMetadata) : ColumnMetadata :=
  let tsType := trimJs (stripNullUndefined tsType0)
  let (m, tsType) :=
    if endsWithJs tsType "[]" then
      ({ m with isArray := true }, String.mk (tsType.data.take (tsType.data.length - 2)))
    else (m, tsType)
  let newType :=
    if tsType == "string" then "varchar"
    else if tsType == "number" then "integer"
    else if tsType == "boolean" then "boolean"
    else if tsType == "Date" then "timestamp"
    else if tsType == "Buffer" then "bytea"
    else if containsChar tsType (Char.ofNat 123) then "json"
    else "varchar"
  { m with type := newType }

/-- The initial metadata record of `extractColumnFromProperty`. -/
def initMetadata (decoratorName : String) (propertyName : String) : ColumnMetadata :=
  { propertyName := propertyName
    columnName := toSnakeCase propertyName
    type := "varchar"
    isPrimary := false
    isGenerated := false
    isNullable := true
    isUnique := false
    isCreateDate := decoratorName == "CreateDateColumn"
    isUpdateDate := decoratorName == "UpdateDateColumn"
    isDeleteDate := decoratorName == "DeleteDateColumn"
    isVersion := decoratorName == "VersionColumn" }

/-- The primary-column stage. -/
def applyPrimary (decoratorName : String) (m : ColumnMetadata) : ColumnMetadata :=
  if decoratorName == "PrimaryColumn" || decoratorName == "PrimaryGeneratedColumn" then
    { m with isPrimary := true, isNullable := false }
  else m

/-- The generated-column stage: the strategy comes from the stripped text
of the first argument; the `increment` default applies only when the
decorator has no arguments at all. -/
def applyGenerated (decoratorName : String) (args : List TsExpr)
    (m : ColumnMetadata) : ColumnMetadata :=
  if decoratorName == "PrimaryGeneratedColumn" then
    let m := { m with isGenerated := true }
    match args with
    | [] => { m with generationStrategy := some "increment", type := "integer" }
    | firstArg :: _ =>
      let fa := stripQuotes firstArg.getText
      if fa == "uuid" then { m with generationStrategy := some "uuid", type := "uuid" }
      else if fa == "increment" then
        { m with generationStrategy := some "increment", type := "integer" }
      else if fa == "rowid" then
        { m with generationStrategy := some "rowid", type := "integer" }
      else m
  else m

/-- The special date-column stage. -/
def applySpecialDate (decoratorName : String) (m : ColumnMetadata) : ColumnMetadata :=
  if ["CreateDateColumn", "UpdateDateColumn", "DeleteDateColumn"].contains decoratorName then
    { m with type := "timestamp", isNullable := false }
  else m

/-- The version-column stage. -/
def applyVersion (decoratorName : String) (m : ColumnMetadata) : ColumnMetadata :=
  if decoratorName == "VersionColumn" then
    { m with type := "integer", isNullable := false }
  else m

/-- The type-inference stage: only when no explicit type was set (still
`varchar`) and the column is not generated. -/
def applyInference (tsTypeText : String) (m : ColumnMetadata) : ColumnMetadata :=
  if m.type == "varchar" && !m.isGenerated then inferTypeFromTsType tsTypeText m
  else m

/-- The JSDoc stage: a leading documentation comment becomes `comment`. -/
def applyJsDoc (jsDocComment : Option String) (m : ColumnMetadata) : ColumnMetadata :=
  match jsDocComment with
  | some c => { m with comment := some c }
  | none => m

/-- The decorator-name-driven stages of `extractColumnFromProperty`, in
source order: initial metadata, primary handling, generated handling,
special date handling, version handling. -/
def stagedMetadata (dn : String) (pname : String) (args : List TsExpr) :
    ColumnMetadata :=
  applyVersion dn (applySpecialDate dn (applyGenerated dn args
    (applyPrimary dn (initMetadata dn pname))))

/-- Source `extractColumnFromProperty`: find the first column-role decorator,
then run the stages in source order, the options pass, type inference,
and the JSDoc comment. -/
def extractColumnFromProperty (p : PropertyDeclaration) (enumsMap : EnumsMap) :
    Option ColumnMetadata × EnumsMap :=
  match p.decorators.find? (fun d => columnDecoratorNames.contains d.name) with
  | none => (none, enumsMap)
  | some dec =>
    let m := stagedMetadata dec.name p.name dec.args
    let (m, enumsMap) := applyOptionArgs dec.args m enumsMap
    let m := applyInference p.tsTypeText m
    let m := applyJsDoc p.jsDocComment m
    (some m, enumsMap)

/-- One step of the `extractColumns` loop. -/
def colStep (acc : List ColumnMetadata × EnumsMap) (p : PropertyDeclaration) :
    List ColumnMetadata × EnumsMap :=
  match extractColumnFromProperty p acc.2 with
  | (some c, em2) => (acc.1 ++ [c], em2)
  | (none, em2) => (acc.1, em2)

/-- Source `extractColumns`: every property in order, threading the registry. -/
def extractColumns (cls : ClassDeclaration) (enumsMap : EnumsMap) :
    List ColumnMetadata × EnumsMap :=
  cls.properties.foldl colStep ([], enumsMap)

end ColumnExtractor

/-! ## RelationExtractor (src/extractor/RelationExtractor.ts) -/

namespace RelationExtractor

def relationDecoratorNames : List String :=
  ["OneToOne", "ManyToOne", "OneToMany", "ManyToMany"]

def relationTypeOf (decoratorName : String) : Option RelationType :=
  if decoratorName == "OneToOne" then some .oneToOne
  else if decoratorName == "ManyToOne" then some .manyToOne
  else if decoratorName == "OneToMany" then some .oneToMany
  else if decoratorName == "ManyToMany" then some .manyToMany
  else none

/-- The `/\w+\.(\w+)/` match used on the inverse-side arrow body: the
first dot with a word character on both sides; the capture is the word
after that dot. -/
def isWordChar (c : Char) : Bool := c.isAlphanum || c == '_'

def findInversePropertyIn : List Char → Option String
  | a :: '.' :: b :: rest =>
    if isWordChar a && isWordChar b then
      some (String.mk ((b :: rest).takeWhile isWordChar))
    else findInversePropertyIn ('.' :: b :: rest)
  | _ :: rest => findInversePropertyIn rest
  | [] => none

/-- Source `extractRelationArguments`: target from the first argument (arrow
body text, else the argument text), inverse side from a second arrow
argument, `onDelete`/`onUpdate` upper-cased from a third options
argument. -/
def extractRelationArguments (args : List TsExpr) :
    String × Option String × Option String × Option String :=
  let target := match args.head? with
    | some (.arrowFn body) => body
    | some a => a.getText
    | none => "Unknown"
  let inverseSide := match args.get? 1 with
    | some (.arrowFn body) => findInversePropertyIn body.data
    | _ => none
  let (onDelete, onUpdate) := match args.get? 2 with
    | some (.objLit _ props) =>
      props.foldl (fun acc p =>
        let value := stripQuotes p.2.1.getText
        if p.1 == "onDelete" then (some (toUpperJs value), acc.2)
        else if p.1 == "onUpdate" then (acc.1, some (toUpperJs value))
        else acc) (none, none)
    | _ => (none, none)
  (target, inverseSide, onDelete, onUpdate)

/-- Source `extractSingleJoinColumn` / the prop loop of `extractJoinColumn`. -/
def extractSingleJoinColumn (props : List (String × TsExpr × Option EnumSymbol)) :
    JoinColumnMetadata :=
  props.foldl (fun jc p =>
    let value := stripQuotes p.2.1.getText
    if p.1 == "name" then { jc with name := some value }
    else if p.1 == "referencedColumnName" then
      { jc with referencedColumnName := some value }
    else jc) {}

/-- Source `extractJoinColumn`: options object of a `@JoinColumn` decorator. -/
def extractJoinColumn (d : Decorator) : JoinColumnMetadata :=
  match d.args.head? with
  | some (.objLit _ props) => extractSingleJoinColumn props
  | _ => {}

/-- Source `extractJoinColumns`: an array of objects or a single object. -/
def extractJoinColumns (init : TsExpr) : List JoinColumnMetadata :=
  match init with
  | .arrLit _ elems =>
    elems.filterMap (fun e =>
      match e with
      | .objLit _ props => some (extractSingleJoinColumn props)
      | _ => none)
  | .objLit _ props => [extractSingleJoinColumn props]
  | _ => []

/-- Source `extractJoinTable`: the options object of a `@JoinTable` decorator. -/
def extractJoinTable (d : Decorator) : JoinTableMetadata :=
  match d.args.head? with
  | some (.objLit _ props) =>
    props.foldl (fun jt p =>
      if p.1 == "name" then { jt with name := some (stripQuotes p.2.1.getText) }
      else if p.1 == "joinColumn" || p.1 == "joinColumns" then
        { jt with joinColumns := extractJoinColumns p.2.1 }
      else if p.1 == "inverseJoinColumn" || p.1 == "inverseJoinColumns" then
        { jt with inverseJoinColumns := extractJoinColumns p.2.1 }
      else jt)
      { name := none, joinColumns := [], inverseJoinColumns := [] }
  | _ => { name := none, joinColumns := [], inverseJoinColumns := [] }

/-- Source `extractRelationFromProperty`: the first relation-role decorator
determines the kind; one-to-one/many-to-one always get a join column
(explicit `@JoinColumn` or the synthesized default
`snake_case(property)_id` → `id`); many-to-many gets a join table only
when a `@JoinTable` decorator is present. -/
def extractRelationFromProperty (p : PropertyDeclaration) : Option RelationMetadata :=
  match p.decorators.find? (fun d => relationDecoratorNames.contains d.name) with
  | none => none
  | some relationDecorator =>
    match relationTypeOf relationDecorator.name with
    | none => none
    | some type =>
      let (target, inverseSide, onDelete, onUpdate) :=
        extractRelationArguments relationDecorator.args
      let m : RelationMetadata :=
        { propertyName := p.name, type := type, target := target,
          inverseSide := inverseSide, onDelete := onDelete, onUpdate := onUpdate }
      let m := if type == .oneToOne || type == .manyToOne then
          let jc : JoinColumnMetadata :=
            match p.decorators.find? (fun d => d.name == "JoinColumn") with
            | some jcDec => extractJoinColumn jcDec
            | none =>
              { name := some (toSnakeCase p.name ++ "_id"),
                referencedColumnName := some "id" }
          { m with joinColumn := some jc }
        else m
      let m := if type == .manyToMany then
          match p.decorators.find? (fun d => d.name == "JoinTable") with
          | some jtDec => { m with joinTable := some (extractJoinTable jtDec) }
          | none => m
        else m
      some m

/-- Source `extractRelations`. -/
def extractRelations (cls : ClassDeclaration) : List RelationMetadata :=
  cls.properties.filterMap extractRelationFromProperty

end RelationExtractor

/-! ## MetadataExtractor (src/parser/MetadataExtractor.ts), full pipeline -/

namespace MetadataExtractor

/-- Source `extractEntityDecorator`: table name from the snake-cased class name
or the `@Entity` argument; schema from an options object; the class
JSDoc becomes the note. -/
def extractEntityDecorator (cls : ClassDeclaration) :
    String × Option String × Option String :=
  let className := cls.name.getD "Unknown"
  let tableName := toSnakeCase className
  let (tableName, schema) := match cls.decorators.find? (fun d => d.name == "Entity") with
    | some entityDecorator =>
      (match entityDecorator.args.head? with
       | some (.strLit _) =>
         (stripQuotes (TsExpr.getText (entityDecorator.args.head?.getD (.other ""))), none)
       | some (.objLit _ props) =>
         props.foldl (fun acc p =>
           if p.1 == "name" then (stripQuotes p.2.1.getText, acc.2)
           else if p.1 == "schema" then (acc.1, some (stripQuotes p.2.1.getText))
           else acc) (tableName, none)
       | _ => (tableName, none))
    | none => (tableName, none)
  (tableName, schema, cls.jsDocComment)

/-- Source `extractInheritance`: `@TableInheritance` options plus an optional
`@ChildEntity` discriminator value. -/
def extractInheritance (cls : ClassDeclaration) : Option InheritanceMetadata :=
  match cls.decorators.find? (fun d => d.name == "TableInheritance") with
  | none => none
  | some dec =>
    match dec.args.head? with
    | some (.objLit _ props) =>
      let (pattern, discriminatorColumn) := props.foldl (fun acc p =>
        if p.1 == "pattern" then (stripQuotes p.2.1.getText, acc.2)
        else if p.1 == "column" then (acc.1, some (stripQuotes p.2.1.getText))
        else acc) ("STI", none)
      let discriminatorValue :=
        match cls.decorators.find? (fun d => d.name == "ChildEntity") with
        | some childDec =>
          match childDec.args.head? with
          | some a => some (stripQuotes a.getText)
          | none => none
        | none => none
      some { pattern := pattern, discriminatorColumn := discriminatorColumn,
             discriminatorValue := discriminatorValue }
    | _ => none

/-- Source `extractEntityMetadata`: one entity, threading the enum registry. -/
def extractEntityMetadata (cls : ClassDeclaration) (enumsMap : EnumsMap) :
    EntityMetadata × EnumsMap :=
  let className := cls.name.getD "Unknown"
  let (tableName, schema, note) := extractEntityDecorator cls
  let (columns, enumsMap) := ColumnExtractor.extractColumns cls enumsMap
  let relations := RelationExtractor.extractRelations cls
  let (indexes, uniques, checks) := ConstraintExtractor.extractConstraints cls
  let inheritance := extractInheritance cls
  ({ name := className, tableName := tableName, schema := schema,
     columns := columns, relations := relations, indexes := indexes,
     uniques := uniques, checks := checks, note := note,
     inheritance := inheritance }, enumsMap)

/-- One step of the `extractMetadata` entity loop. -/
def entStep (acc : List EntityMetadata × EnumsMap) (cls : ClassDeclaration) :
    List EntityMetadata × EnumsMap :=
  let r := extractEntityMetadata cls acc.2
  (acc.1 ++ [r.1], r.2)

/-- Source `extractMetadata` with an explicit initial registry: pass 1 extracts
every entity in order, pass 2 resolves relation targets, the enums are
the registry values in insertion order; `extractJoinTables` always
returns the empty list. -/
def extractMetadataWith (enumsMap0 : EnumsMap) (entities : List ClassDeclaration) :
    DBMLSchema :=
  let r := entities.foldl entStep (([] : List EntityMetadata), enumsMap0)
  { entities := resolveRelationships r.1, enums := r.2.valuesList,
    joinTables := [] }

/-- Source `extractMetadata` as called by `generateSchema`/`generateDBML`: each
invocation constructs a fresh `MetadataExtractor`, whose constructor
creates an empty `enumsMap`. -/
def extractMetadata (entities : List ClassDeclaration) : DBMLSchema :=
  extractMetadataWith [] entities

/-- Two sequential `generateSchema` invocations: each constructs a fresh
extractor with an empty registry (src/index.ts). -/
def generateSchemaTwice (entities1 entities2 : List ClassDeclaration) :
    DBMLSchema × DBMLSchema :=
  (extractMetadataWith [] entities1, extractMetadataWith [] entities2)

end MetadataExtractor

/-- A string containing no quote characters (so `stripQuotes` leaves it
unchanged). -/
def quoteFree (s : String) : Bool :=
  s.data.all (fun c => !(c == qchar || c == dqchar))

/-- An argument list containing no options literal. -/
def noObjLit (args : List TsExpr) : Bool :=
  args.all (fun a =>
    match a with
    | .objLit _ _ => false
    | _ => true)

/-- The special-role flag quadruple of a column. -/
def specialFlags (m : ColumnMetadata) : Bool × Bool × Bool × Bool :=
  (m.isCreateDate, m.isUpdateDate, m.isDeleteDate, m.isVersion)

/-- How many special-role flags are set. -/
def specialFlagCount (m : ColumnMetadata) : Nat :=
  (if m.isCreateDate then 1 else 0) + (if m.isUpdateDate then 1 else 0) +
    (if m.isDeleteDate then 1 else 0) + (if m.isVersion then 1 else 0)

/-- The primary/generated fields of a column. -/
def genFields (m : ColumnMetadata) : Bool × Bool × Option String :=
  (m.isPrimary, m.isGenerated, m.generationStrategy)

/-- The resolved enum symbols attached to the property assignments of an
options-literal argument. -/
def propEnumSyms (arg : TsExpr) : List EnumSymbol :=
  match arg with
  | .objLit _ props => props.filterMap (fun p => p.2.2)
  | _ => []

/-- Every enum symbol reachable from one property's decorators. -/
def propertyEnumSyms (p : PropertyDeclaration) : List EnumSymbol :=
  ((p.decorators.map (fun d => (d.args.map propEnumSyms).flatten)).flatten)

/-- Every enum symbol reachable from a class declaration: these are the
only symbols a generation run over that class can register. -/
def classEnumSyms (cls : ClassDeclaration) : List EnumSymbol :=
  ((cls.properties.map propertyEnumSyms).flatten)

/-- The registry entry an enum symbol produces when it is registered:
key = the symbol's declared identifier, value = the snake-cased name
with the member values (initializer text, quotes stripped, else the
member name).  `none` when the symbol's first declaration is not an
enum declaration. -/
def registeredEnumEntry (sym : EnumSymbol) : Option (String × EnumMetadata) :=
  match sym.decls with
  | .enumDecl members :: _ =>
    some (sym.name,
      { name := toSnakeCase sym.name,
        values := members.map (fun mem =>
          match mem.initText with
          | some t => stripQuotes t
          | none => mem.name) })
  | _ => none

/-! ## Concrete example inputs used by witnesses and counterexamples -/

/-- A one-to-one relation metadata value with no join column, as left by
a hand-built schema. -/
def exC3Entity : EntityMetadata :=
  { name := "Profile", tableName := "profile" }

def exC3RelNoJc : RelationMetadata :=
  { propertyName := "user", type := .oneToOne, target := "user" }

def exC3RelJc : RelationMetadata :=
  { propertyName := "user", type := .oneToOne, target := "user",
    joinColumn := some { name := some "user_id", referencedColumnName := some "id" } }

/-- An enum-typed, array-valued column. -/
def exC7EnumArray : ColumnMetadata :=
  { propertyName := "statuses", columnName := "statuses", type := "enum",
    enumName := some "status", isArray := true }

def exC7TextArray : ColumnMetadata :=
  { propertyName := "tags", columnName := "tags", type := "text", isArray := true }

def exC10Col : ColumnMetadata :=
  { propertyName := "createdAt", columnName := "created_at", type := "timestamp",
    isNullable := false, default := some "CURRENT_TIMESTAMP", isCreateDate := true }

def exC2User : EntityMetadata :=
  { name := "User", tableName := "user",
    relations := [{ propertyName := "profile", type := .oneToOne,
                    target := "Profile" }] }

def exC2Profile : EntityMetadata :=
  { name := "Profile", tableName := "profile",
    relations := [{ propertyName := "owner", type := .oneToOne,
                    target := "User" }] }

/-- An entity referencing a class whose table name is empty. -/
def exC2EmptyUser : EntityMetadata :=
  { name := "User", tableName := "user",
    relations := [{ propertyName := "profile", type := .oneToOne,
                    target := "Profile" }] }

/-- An entity with an empty physical table name, as `@Entity('')`
produces. -/
def exC2EmptyProfile : EntityMetadata :=
  { name := "Profile", tableName := "",
    relations := [{ propertyName := "owner", type := .oneToOne,
                    target := "User" }] }

def exC8Order : EntityMetadata :=
  { name := "Order", tableName := "order_table",
    relations := [{ propertyName := "customer", type := .manyToOne,
                    target := "ExternalCustomer" }] }

/-- The options-only index annotation used in the counterexample:
`@Index(\x7b columns: ['a'], unique: true \x7d)`. -/
def exC4OptionsOnly : Decorator :=
  { name := "Index",
    args := [.objLit "\x7b columns: [a], unique: true \x7d"
      [("columns", .arrLit "[a]" [.strLit "a"], none),
       ("unique", .other "true", none)]] }

/-- A create-date column whose options literal sets `nullable: true`. -/
def exC5Prop : PropertyDeclaration :=
  { name := "createdAt",
    decorators := [{ name := "CreateDateColumn",
                     args := [.objLit "\x7b nullable: true \x7d"
                       [("nullable", .other "true", none)]] }],
    tsTypeText := "Date" }

/-- A plain `@CreateDateColumn()` property used as the C5 witness. -/
def exC5OkProp : PropertyDeclaration :=
  { name := "createdAt",
    decorators := [{ name := "CreateDateColumn", args := [] }],
    tsTypeText := "Date" }

/-- The column the witness extracts. -/
def exC5OkCol : ColumnMetadata :=
  ((ColumnExtractor.extractColumnFromProperty exC5OkProp []).1).getD
    { propertyName := "", columnName := "", type := "" }

/-- A primary-generated column whose only argument is an options
literal. -/
def exC6Prop : PropertyDeclaration :=
  { name := "id",
    decorators := [{ name := "PrimaryGeneratedColumn",
                     args := [.objLit "\x7b comment: x \x7d"
                       [("comment", .strLit "x", none)]] }],
    tsTypeText := "number" }

/-- A `@PrimaryGeneratedColumn('uuid')` property used as the C6 witness. -/
def exC6OkProp : PropertyDeclaration :=
  { name := "id",
    decorators := [{ name := "PrimaryGeneratedColumn",
                     args := [.strLit "uuid"] }],
    tsTypeText := "string" }

def exC6OkCol : ColumnMetadata :=
  ((ColumnExtractor.extractColumnFromProperty exC6OkProp []).1).getD
    { propertyName := "", columnName := "", type := "" }

/-- The enum symbol of the C9 witness class. -/
def exC9Sym : EnumSymbol :=
  { name := "UserRole",
    decls := [.enumDecl [{ name := "ADMIN", initText := some "admin" },
                         { name := "USER" }]] }

/-- The options object of the C9 witness column. -/
def exC9Options : TsExpr :=
  .objLit "\x7b type: enum, enum: UserRole \x7d"
    [("type", .strLit "enum", none), ("enum", .other "UserRole", some exC9Sym)]

/-- The enum-typed property of the C9 witness class. -/
def exC9PropDecl : PropertyDeclaration :=
  { name := "role",
    decorators := [{ name := "Column", args := [exC9Options] }],
    tsTypeText := "UserRole" }

/-- A class with one enum-typed column, the C9 witness input. -/
def exC9Cls : ClassDeclaration :=
  { name := some "User",
    decorators := [{ name := "Entity", args := [] }],
    properties := [exC9PropDecl] }

/-! # Theorems for the claims -/

lemma stripQuotes_append (a b : String) :
    stripQuotes (a ++ b) = stripQuotes a ++ stripQuotes b := by
  apply String.ext
  simp [stripQuotes, String.data_append, List.filter_append]

lemma stripQuotes_of_quoteFree (s : String) (h : quoteFree s = true) :
    stripQuotes s = s := by
  apply String.ext
  simp only [stripQuotes]
  exact List.filter_eq_self.mpr (by simpa [quoteFree, List.all_eq_true] using h)

lemma stripQuotes_strLit_getText (v : String) (h : quoteFree v = true) :
    stripQuotes (TsExpr.getText (.strLit v)) = v := by
  show stripQuotes (squote ++ v ++ squote) = v
  rw [stripQuotes_append, stripQuotes_append, stripQuotes_of_quoteFree v h]
  have hq : stripQuotes squote = "" := by decide
  rw [hq]
  apply String.ext
  simp [String.data_append]

/-- Claim C1:  For every `DBMLSchema` value and every fixed generator
configuration, serializing the schema twice yields byte-identical
output: `schemaToDBML` (the serializer entry point constructing a
generator from the options, `DBMLGenerator.generate` inside) is a pure
function of the schema value and the options alone — its embedding takes
no other input, so two invocations on the same arguments are equal. -/
theorem C1_serializer_deterministic (schema : DBMLSchema)
    (options : Option GeneratorOptions) :
    schemaToDBML schema options = schemaToDBML schema options ∧
    schemaToDBML schema options =
      DBMLGenerator.generate (resolveOptions options) schema :=
  ⟨rfl, rfl⟩

/-- Claim C3:  A one-to-one relation without join-column metadata produces
no reference line; a one-to-one reference line is emitted exactly from
the side carrying join-column metadata, so the mirror property (which
lacks it) emits nothing. -/
theorem C3_one_to_one_join_column_gate (e : EntityMetadata) (r : RelationMetadata)
    (h : r.type = .oneToOne) :
    (r.joinColumn = none → RelationGenerator.generateRelation e r = none) ∧
    (∀ jc, r.joinColumn = some jc →
      (RelationGenerator.generateRelation e r).isSome = true) := by
  constructor
  · intro hj
    simp [RelationGenerator.generateRelation, h, RelationGenerator.generateOneToOne, hj]
  · intro jc hj
    simp [RelationGenerator.generateRelation, h, RelationGenerator.generateOneToOne, hj]

/-- Witness for C3 at a concrete one-to-one pair. -/
theorem C3_one_to_one_join_column_gate_witness :
    RelationGenerator.generateRelation exC3Entity exC3RelNoJc = none ∧
    (RelationGenerator.generateRelation exC3Entity exC3RelJc).isSome = true :=
  ⟨(C3_one_to_one_join_column_gate exC3Entity exC3RelNoJc rfl).1 rfl,
   (C3_one_to_one_join_column_gate exC3Entity exC3RelJc rfl).2 _ rfl⟩

/-- Claim C7, counterexample:  The claim says every `isArray` column gets
the `[]` suffix including enum columns; but `mapType` returns the enum
identifier immediately, before the array-suffix step, so the
array-valued enum column maps to `status`, which does not carry `[]`. -/
theorem C7_counterexample_enum_array :
    exC7EnumArray.isArray = true ∧
    TypeMapper.mapType exC7EnumArray = "status" ∧
    ¬ ("[]".data <:+ (TypeMapper.mapType exC7EnumArray).data) :=
  ⟨rfl, rfl, by decide⟩

/-- Claim C7, amended:  For every array-valued column that is not
enum-typed, `mapType` appends the `[]` suffix (before any size suffix);
an enum-typed column always yields the bare enum identifier with no
array suffix, even when `isArray` is set. -/
theorem C7_array_suffix_amended (c : ColumnMetadata) :
    (c.isArray = true → optTruthy c.enumName = false →
      TypeMapper.mapType c =
        (TypeMapper.getBaseType c.type ++ "[]") ++ TypeMapper.sizeSuffix c) ∧
    (optTruthy c.enumName = true → TypeMapper.mapType c = c.enumName.getD "") := by
  constructor
  · intro ha he
    simp [TypeMapper.mapType, ha, he]
  · intro he
    simp [TypeMapper.mapType, he]

/-- Witness for the amended C7 at concrete columns. -/
theorem C7_array_suffix_amended_witness :
    TypeMapper.mapType exC7TextArray =
      (TypeMapper.getBaseType exC7TextArray.type ++ "[]") ++
        TypeMapper.sizeSuffix exC7TextArray ∧
    TypeMapper.mapType exC7EnumArray = exC7EnumArray.enumName.getD "" :=
  ⟨(C7_array_suffix_amended exC7TextArray).1 rfl rfl,
   (C7_array_suffix_amended exC7EnumArray).2 rfl⟩

/-- Claim C10:  A create-date or update-date column that also carries an
explicit default emits two default clauses: the explicit
`default: <value>` immediately followed by the unconditional
`default: ` + backtick + `now()` + backtick, because the latter is appended
regardless of an existing default. -/
theorem C10_double_default_clause (opts : ResolvedOptions) (c : ColumnMetadata)
    (d : String) (hd : c.default = some d)
    (hcd : c.isCreateDate = true ∨ c.isUpdateDate = true) :
    ∃ pre post, TableGenerator.columnSettingsList opts c =
      pre ++ ["default: " ++ TableGenerator.formatDefaultValue d c,
              "default: `now()`"] ++ post := by
  have hb : (c.isCreateDate || c.isUpdateDate) = true := by
    cases hcd with
    | inl h => simp [h]
    | inr h => simp [h]
  refine ⟨TableGenerator.pkSettings c ++ TableGenerator.uniqueSettings c ++
    TableGenerator.notNullSettings c, TableGenerator.noteSettings opts c, ?_⟩
  simp [TableGenerator.columnSettingsList, TableGenerator.defaultSettings, hd,
    TableGenerator.nowDefaultSettings, hb]

/-- Witness for C10 at a concrete create-date column with an explicit
default. -/
theorem C10_double_default_clause_witness :
    ∃ pre post,
      TableGenerator.columnSettingsList (resolveOptions none) exC10Col =
        pre ++ ["default: " ++
                  TableGenerator.formatDefaultValue "CURRENT_TIMESTAMP" exC10Col,
                "default: `now()`"] ++ post :=
  C10_double_default_clause (resolveOptions none) exC10Col "CURRENT_TIMESTAMP"
    rfl (Or.inl rfl)

/-- Pass-2 lookup in a two-entity batch: the second entity's name
resolves to its table name. -/
lemma mapGetLast_pair_snd (A B : EntityMetadata) :
    MetadataExtractor.mapGetLast (MetadataExtractor.classToTable [A, B]) B.name =
      some B.tableName := by
  simp [MetadataExtractor.mapGetLast, MetadataExtractor.classToTable, List.find?]

/-- Pass-2 lookup in a two-entity batch: with distinct names, the first
entity's name resolves to its table name. -/
lemma mapGetLast_pair_fst (A B : EntityMetadata) (hne : A.name ≠ B.name) :
    MetadataExtractor.mapGetLast (MetadataExtractor.classToTable [A, B]) A.name =
      some A.tableName := by
  have hb : (B.name == A.name) = false := beq_eq_false_iff_ne.mpr (Ne.symm hne)
  simp [MetadataExtractor.mapGetLast, MetadataExtractor.classToTable, List.find?, hb]

/-- Claim C2, counterexample:  The claim promises both targets are
rewritten to the physical table names, but pass 2 guards the rewrite
with a truthiness check (`if (targetTable)`): when the referenced
entity's table name is the empty string — reachable from
`@Entity('')` — the rewrite is skipped and the class identifier kept.
Here `Profile` has an empty table name, so `User`'s relation keeps its
class-identifier target `Profile` while `Profile`'s relation is
rewritten to `user`. -/
theorem C2_counterexample_empty_table_name :
    MetadataExtractor.resolveRelationships [exC2EmptyUser, exC2EmptyProfile] =
      [exC2EmptyUser,
       { exC2EmptyProfile with relations :=
          [{ propertyName := "owner", type := .oneToOne, target := "user" }] }] ∧
    exC2EmptyProfile.tableName = "" ∧ "Profile" ≠ "" := by
  refine ⟨by decide, rfl, by decide⟩

/-- Claim C2, amended:  In a batch holding entities A and B — in either
declaration order, including the mutual-reference cycle — pass 2
rewrites A's relation targeting B's class identifier to B's physical
table name, and B's relation targeting A's class identifier to A's
table name, provided the referenced entity's table name is non-empty (a
falsy looked-up table name is skipped and the class identifier kept). -/
theorem C2_pass2_resolves_mutual_references (A B : EntityMetadata)
    (rA rB : RelationMetadata) (hne : A.name ≠ B.name)
    (htA : A.tableName ≠ "") (htB : B.tableName ≠ "")
    (hA : rA ∈ A.relations) (hTA : rA.target = B.name)
    (hB : rB ∈ B.relations) (hTB : rB.target = A.name) :
    (∃ A1 B1, MetadataExtractor.resolveRelationships [A, B] = [A1, B1] ∧
      { rA with target := B.tableName } ∈ A1.relations ∧
      { rB with target := A.tableName } ∈ B1.relations) ∧
    (∃ B2 A2, MetadataExtractor.resolveRelationships [B, A] = [B2, A2] ∧
      { rA with target := B.tableName } ∈ A2.relations ∧
      { rB with target := A.tableName } ∈ B2.relations) := by
  have hbA : (A.tableName == "") = false := beq_eq_false_iff_ne.mpr htA
  have hbB : (B.tableName == "") = false := beq_eq_false_iff_ne.mpr htB
  constructor
  · refine ⟨_, _, rfl, ?_, ?_⟩
    · refine List.mem_map.mpr ⟨rA, hA, ?_⟩
      simp [MetadataExtractor.resolveRelation, hTA, mapGetLast_pair_snd, hbB]
    · refine List.mem_map.mpr ⟨rB, hB, ?_⟩
      simp [MetadataExtractor.resolveRelation, hTB, mapGetLast_pair_fst A B hne,
        hbA]
  · refine ⟨_, _, rfl, ?_, ?_⟩
    · refine List.mem_map.mpr ⟨rA, hA, ?_⟩
      simp [MetadataExtractor.resolveRelation, hTA,
        mapGetLast_pair_fst B A (Ne.symm hne), hbB]
    · refine List.mem_map.mpr ⟨rB, hB, ?_⟩
      simp [MetadataExtractor.resolveRelation, hTB, mapGetLast_pair_snd, hbA]

/-- Witness for C2: a concrete mutual-reference pair resolves in both
declaration orders. -/
theorem C2_pass2_resolves_mutual_references_witness :
    (∃ A1 B1,
      MetadataExtractor.resolveRelationships [exC2User, exC2Profile] = [A1, B1] ∧
      ({ propertyName := "profile", type := .oneToOne, target := "profile" }
          : RelationMetadata) ∈ A1.relations ∧
      ({ propertyName := "owner", type := .oneToOne, target := "user" }
          : RelationMetadata) ∈ B1.relations) ∧
    (∃ B2 A2,
      MetadataExtractor.resolveRelationships [exC2Profile, exC2User] = [B2, A2] ∧
      ({ propertyName := "profile", type := .oneToOne, target := "profile" }
          : RelationMetadata) ∈ A2.relations ∧
      ({ propertyName := "owner", type := .oneToOne, target := "user" }
          : RelationMetadata) ∈ B2.relations) :=
  C2_pass2_resolves_mutual_references exC2User exC2Profile
    { propertyName := "profile", type := .oneToOne, target := "Profile" }
    { propertyName := "owner", type := .oneToOne, target := "User" }
    (by decide) (by decide) (by decide) (by decide) rfl (by decide) rfl

/-- Pass-2 lookup misses every entity whose name differs from the key. -/
lemma mapGetLast_eq_none (es : List EntityMetadata) (t : String)
    (h : ∀ e ∈ es, e.name ≠ t) :
    MetadataExtractor.mapGetLast (MetadataExtractor.classToTable es) t = none := by
  have : (MetadataExtractor.classToTable es).reverse.find?
      (fun e => e.1 == t) = none := by
    refine List.find?_eq_none.mpr ?_
    intro x hx
    rw [List.mem_reverse] at hx
    obtain ⟨e, he, rfl⟩ := List.mem_map.mp hx
    simpa using h e he
  simp [MetadataExtractor.mapGetLast, this]

/-- Claim C8:  A relation whose target matches no entity in the batch is
left unchanged by pass 2, and a many-to-one relation always serializes
to a reference line whose target table is the (possibly unresolved)
target string, with no failure and no effect on the other entities
(pass 2 is a pointwise map). -/
theorem C8_unresolved_target_passthrough (es : List EntityMetadata)
    (e : EntityMetadata) (r : RelationMetadata)
    (hmiss : ∀ e2 ∈ es, e2.name ≠ r.target) (hr : r.type = .manyToOne) :
    MetadataExtractor.resolveRelation (MetadataExtractor.classToTable es) r = r ∧
    (∃ jc rc suffix, RelationGenerator.generateRelation e r =
      some ("Ref: " ++ escapeIdentifier e.tableName ++ "." ++ escapeIdentifier jc ++
        " > " ++ escapeIdentifier r.target ++ "." ++ escapeIdentifier rc ++ suffix)) ∧
    MetadataExtractor.resolveRelationships es = es.map (fun e2 =>
      { e2 with relations :=
          List.map (MetadataExtractor.resolveRelation (MetadataExtractor.classToTable es)) e2.relations }) := by
  refine ⟨?_, ?_, rfl⟩
  · simp [MetadataExtractor.resolveRelation, mapGetLast_eq_none es r.target hmiss]
  · cases hopts : RelationGenerator.generateRelationOptions r with
    | none =>
      refine ⟨orJs (r.joinColumn.bind (fun jc => jc.name))
        (toSnakeCase r.propertyName ++ "_id"),
        orJs (r.joinColumn.bind (fun jc => jc.referencedColumnName)) "id", "", ?_⟩
      simp only [RelationGenerator.generateRelation, hr,
        RelationGenerator.generateManyToOne, hopts]
      refine congrArg some ?_
      apply String.ext
      simp [String.intercalate, String.intercalate.go, String.data_append]
    | some o =>
      refine ⟨orJs (r.joinColumn.bind (fun jc => jc.name))
        (toSnakeCase r.propertyName ++ "_id"),
        orJs (r.joinColumn.bind (fun jc => jc.referencedColumnName)) "id",
        " " ++ o, ?_⟩
      simp only [RelationGenerator.generateRelation, hr,
        RelationGenerator.generateManyToOne, hopts]
      refine congrArg some ?_
      apply String.ext
      simp [String.intercalate, String.intercalate.go, String.data_append]

/-- Witness for C8: a batch with one entity whose relation targets an
absent class identifier. -/
theorem C8_unresolved_target_passthrough_witness :
    MetadataExtractor.resolveRelation (MetadataExtractor.classToTable [exC8Order])
      { propertyName := "customer", type := .manyToOne,
        target := "ExternalCustomer" } =
      { propertyName := "customer", type := .manyToOne,
        target := "ExternalCustomer" } ∧
    (∃ jc rc suffix,
      RelationGenerator.generateRelation exC8Order
        { propertyName := "customer", type := .manyToOne,
          target := "ExternalCustomer" } =
      some ("Ref: " ++ escapeIdentifier "order_table" ++ "." ++
        escapeIdentifier jc ++ " > " ++ escapeIdentifier "ExternalCustomer" ++
        "." ++ escapeIdentifier rc ++ suffix)) ∧
    MetadataExtractor.resolveRelationships [exC8Order] = [exC8Order].map (fun e2 =>
      { e2 with relations :=
          List.map (MetadataExtractor.resolveRelation (MetadataExtractor.classToTable [exC8Order])) e2.relations }) :=
  C8_unresolved_target_passthrough [exC8Order] exC8Order
    { propertyName := "customer", type := .manyToOne, target := "ExternalCustomer" }
    (by decide) rfl

lemma extractColumnsFromArray_strLits (t : String) (cols : List String)
    (h : ∀ c ∈ cols, quoteFree c = true) :
    ConstraintExtractor.extractColumnsFromArray (.arrLit t (cols.map .strLit)) =
      cols := by
  induction cols with
  | nil => rfl
  | cons c cs ih =>
    have hc := h c (List.mem_cons_self c cs)
    have hcs : ∀ x ∈ cs, quoteFree x = true := fun x hx => h x (List.mem_cons_of_mem c hx)
    simp only [ConstraintExtractor.extractColumnsFromArray, List.map_cons,
      List.filterMap_cons] at ih ⊢
    rw [stripQuotes_strLit_getText c hc]
    rw [ih hcs]

lemma extractIndexOptions_columns
    (props : List (String × TsExpr × Option EnumSymbol)) (m : IndexMetadata) :
    (ConstraintExtractor.extractIndexOptions props m).columns = m.columns := by
  induction props generalizing m with
  | nil => rfl
  | cons p ps ih =>
    show (ConstraintExtractor.extractIndexOptions ps
      (ConstraintExtractor.applyIndexOption m p)).columns = m.columns
    rw [ih]
    unfold ConstraintExtractor.applyIndexOption
    repeat' split
    all_goals try rfl
    all_goals (dsimp only; split <;> rfl)

/-- Claim C4, counterexample:  The options-only shape does not yield the
listed columns and is not discarded: `extractIndexOptions` has no
`columns` case, and the options-only branch returns the metadata before
the empty-column check, so the result is `some` with an empty column
list (the claim expects columns `['a']`, and expects an empty resolved
column list to return no result). -/
theorem C4_counterexample_options_only :
    ConstraintExtractor.extractIndexFromDecorator exC4OptionsOnly =
      some { columns := [], isUnique := true } ∧
    (ConstraintExtractor.extractIndexFromDecorator exC4OptionsOnly).isSome = true ∧
    ([] : List String) ≠ ["a"] :=
  ⟨rfl, rfl, by decide⟩

/-- Claim C4, amended:  The columns-array shape and the name-plus-columns
shape resolve to the expected column list and flags, and for those
shapes an empty resolved column list is discarded (returns no result);
but the options-only shape yields only the option flags with an *empty*
column list (the `columns` key is not recognized) and is returned
rather than discarded. -/
theorem C4_index_shapes (dn t n : String) (cols : List String)
    (props : List (String × TsExpr × Option EnumSymbol)) :
    (cols ≠ [] → (∀ c ∈ cols, quoteFree c = true) →
      ConstraintExtractor.extractIndexFromDecorator
        { name := dn, args := [.arrLit t (cols.map .strLit)] } =
        some { columns := cols, isUnique := false }) ∧
    (cols ≠ [] → (∀ c ∈ cols, quoteFree c = true) → quoteFree n = true →
      ConstraintExtractor.extractIndexFromDecorator
        { name := dn, args := [.strLit n, .arrLit t (cols.map .strLit)] } =
        some { name := some n, columns := cols, isUnique := false }) ∧
    (ConstraintExtractor.extractIndexFromDecorator
        { name := dn, args := [.objLit t props] } =
      some (ConstraintExtractor.extractIndexOptions props
        { columns := [], isUnique := false }) ∧
     (ConstraintExtractor.extractIndexOptions props
        { columns := [], isUnique := false }).columns = []) ∧
    (ConstraintExtractor.extractIndexFromDecorator
        { name := dn, args := [.arrLit t []] } = none) := by
  refine ⟨?_, ?_, ⟨rfl, extractIndexOptions_columns props _⟩, rfl⟩
  · intro hne hq
    have hlen : 0 < cols.length := List.length_pos.mpr hne
    simp [ConstraintExtractor.extractIndexFromDecorator,
      extractColumnsFromArray_strLits t cols hq, hlen]
  · intro hne hq hqn
    have hlen : 0 < cols.length := List.length_pos.mpr hne
    simp [ConstraintExtractor.extractIndexFromDecorator,
      extractColumnsFromArray_strLits t cols hq,
      stripQuotes_strLit_getText n hqn, hlen]

/-- Witness for the amended C4 at the three concrete shapes of the
spec: `(['a','b'])`, `('idx_name', ['a','b'])`, and the options-only
literal. -/
theorem C4_index_shapes_witness :
    (ConstraintExtractor.extractIndexFromDecorator
      { name := "Index", args := [.arrLit "t" [.strLit "a", .strLit "b"]] } =
      some { columns := ["a", "b"], isUnique := false }) ∧
    (ConstraintExtractor.extractIndexFromDecorator
      { name := "Index",
        args := [.strLit "idx_name", .arrLit "t" [.strLit "a", .strLit "b"]] } =
      some { name := some "idx_name", columns := ["a", "b"], isUnique := false }) ∧
    (ConstraintExtractor.extractIndexFromDecorator
      { name := "Index",
        args := [.objLit "t" [("unique", .other "true", none)]] } =
      some (ConstraintExtractor.extractIndexOptions
        [("unique", .other "true", none)] { columns := [], isUnique := false })) ∧
    (ConstraintExtractor.extractIndexFromDecorator
      { name := "Index", args := [.arrLit "t" []] } = none) := by
  have h := C4_index_shapes "Index" "t" "idx_name" ["a", "b"]
    [("unique", .other "true", none)]
  exact ⟨h.1 (by decide) (by decide), h.2.1 (by decide) (by decide) (by decide),
    h.2.2.1.1, h.2.2.2⟩

lemma specialFlags_extractEnumMetadata (sym : Option EnumSymbol)
    (m : ColumnMetadata) (em : EnumsMap) :
    specialFlags (ColumnExtractor.extractEnumMetadata sym m em).1 = specialFlags m := by
  cases sym with
  | none => rfl
  | some s =>
    obtain ⟨sname, sdecls⟩ := s
    unfold ColumnExtractor.extractEnumMetadata
    dsimp only
    split
    · rfl
    · cases sdecls with
      | nil => rfl
      | cons d tail =>
        cases d with
        | enumDecl members => rfl
        | otherDecl => rfl

lemma genFields_extractEnumMetadata (sym : Option EnumSymbol)
    (m : ColumnMetadata) (em : EnumsMap) :
    genFields (ColumnExtractor.extractEnumMetadata sym m em).1 = genFields m := by
  cases sym with
  | none => rfl
  | some s =>
    obtain ⟨sname, sdecls⟩ := s
    unfold ColumnExtractor.extractEnumMetadata
    dsimp only
    split
    · rfl
    · cases sdecls with
      | nil => rfl
      | cons d tail =>
        cases d with
        | enumDecl members => rfl
        | otherDecl => rfl

lemma applyColumnOption_preserves (acc : ColumnMetadata × EnumsMap)
    (p : String × TsExpr × Option EnumSymbol) :
    specialFlags (ColumnExtractor.applyColumnOption acc p).1 = specialFlags acc.1 ∧
    genFields (ColumnExtractor.applyColumnOption acc p).1 = genFields acc.1 := by
  unfold ColumnExtractor.applyColumnOption
  dsimp only
  by_cases h1 : (p.1 == "type") = true
  · rw [if_pos h1]; exact ⟨rfl, rfl⟩
  rw [if_neg h1]
  by_cases h2 : (p.1 == "name") = true
  · rw [if_pos h2]; exact ⟨rfl, rfl⟩
  rw [if_neg h2]
  by_cases h3 : (p.1 == "length") = true
  · rw [if_pos h3]; exact ⟨rfl, rfl⟩
  rw [if_neg h3]
  by_cases h4 : (p.1 == "precision") = true
  · rw [if_pos h4]; exact ⟨rfl, rfl⟩
  rw [if_neg h4]
  by_cases h5 : (p.1 == "scale") = true
  · rw [if_pos h5]; exact ⟨rfl, rfl⟩
  rw [if_neg h5]
  by_cases h6 : (p.1 == "nullable") = true
  · rw [if_pos h6]; exact ⟨rfl, rfl⟩
  rw [if_neg h6]
  by_cases h7 : (p.1 == "unique") = true
  · rw [if_pos h7]; exact ⟨rfl, rfl⟩
  rw [if_neg h7]
  by_cases h8 : (p.1 == "default") = true
  · rw [if_pos h8]; exact ⟨rfl, rfl⟩
  rw [if_neg h8]
  by_cases h9 : (p.1 == "comment") = true
  · rw [if_pos h9]; exact ⟨rfl, rfl⟩
  rw [if_neg h9]
  by_cases h10 : (p.1 == "array") = true
  · rw [if_pos h10]; exact ⟨rfl, rfl⟩
  rw [if_neg h10]
  by_cases h11 : (p.1 == "enum") = true
  · rw [if_pos h11]
    exact ⟨specialFlags_extractEnumMetadata _ _ _,
      genFields_extractEnumMetadata _ _ _⟩
  rw [if_neg h11]
  exact ⟨rfl, rfl⟩

lemma specialFlags_applyColumnOption (acc : ColumnMetadata × EnumsMap)
    (p : String × TsExpr × Option EnumSymbol) :
    specialFlags (ColumnExtractor.applyColumnOption acc p).1 = specialFlags acc.1 :=
  (applyColumnOption_preserves acc p).1

lemma genFields_applyColumnOption (acc : ColumnMetadata × EnumsMap)
    (p : String × TsExpr × Option EnumSymbol) :
    genFields (ColumnExtractor.applyColumnOption acc p).1 = genFields acc.1 :=
  (applyColumnOption_preserves acc p).2

lemma specialFlags_foldOptions (props : List (String × TsExpr × Option EnumSymbol))
    (acc : ColumnMetadata × EnumsMap) :
    specialFlags (props.foldl ColumnExtractor.applyColumnOption acc).1 =
      specialFlags acc.1 := by
  induction props generalizing acc with
  | nil => rfl
  | cons p ps ih =>
    rw [List.foldl_cons, ih, specialFlags_applyColumnOption]

lemma genFields_foldOptions (props : List (String × TsExpr × Option EnumSymbol))
    (acc : ColumnMetadata × EnumsMap) :
    genFields (props.foldl ColumnExtractor.applyColumnOption acc).1 =
      genFields acc.1 := by
  induction props generalizing acc with
  | nil => rfl
  | cons p ps ih =>
    rw [List.foldl_cons, ih, genFields_applyColumnOption]

lemma specialFlags_applyOptionArgs (args : List TsExpr) (m : ColumnMetadata)
    (em : EnumsMap) :
    specialFlags (ColumnExtractor.applyOptionArgs args m em).1 = specialFlags m := by
  unfold ColumnExtractor.applyOptionArgs
  generalize hacc : ((m, em) : ColumnMetadata × EnumsMap) = acc
  have hm : m = acc.1 := by rw [← hacc]
  rw [hm]
  clear hacc hm
  induction args generalizing acc with
  | nil => rfl
  | cons a rest ih =>
    rw [List.foldl_cons]
    cases a with
    | objLit t props =>
      rw [ih]
      exact specialFlags_foldOptions props acc
    | strLit v => exact ih acc
    | arrLit t es => exact ih acc
    | arrowFn b => exact ih acc
    | other t => exact ih acc

lemma genFields_applyOptionArgs (args : List TsExpr) (m : ColumnMetadata)
    (em : EnumsMap) :
    genFields (ColumnExtractor.applyOptionArgs args m em).1 = genFields m := by
  unfold ColumnExtractor.applyOptionArgs
  generalize hacc : ((m, em) : ColumnMetadata × EnumsMap) = acc
  have hm : m = acc.1 := by rw [← hacc]
  rw [hm]
  clear hacc hm
  induction args generalizing acc with
  | nil => rfl
  | cons a rest ih =>
    rw [List.foldl_cons]
    cases a with
    | objLit t props =>
      rw [ih]
      exact genFields_foldOptions props acc
    | strLit v => exact ih acc
    | arrLit t es => exact ih acc
    | arrowFn b => exact ih acc
    | other t => exact ih acc

/-- An argument list with no options literal leaves metadata and the
enum registry untouched. -/
lemma applyOptionArgs_of_noObjLit (args : List TsExpr) (m : ColumnMetadata)
    (em : EnumsMap) (h : noObjLit args = true) :
    ColumnExtractor.applyOptionArgs args m em = (m, em) := by
  unfold ColumnExtractor.applyOptionArgs
  induction args generalizing m em with
  | nil => rfl
  | cons a rest ih =>
    rw [noObjLit, List.all_cons, Bool.and_eq_true] at h
    rw [List.foldl_cons]
    cases a with
    | objLit t props => simp at h
    | strLit v => exact ih m em h.2
    | arrLit t es => exact ih m em h.2
    | arrowFn b => exact ih m em h.2
    | other t => exact ih m em h.2

lemma inferTypeFromTsType_preserves (ts : String) (m : ColumnMetadata) :
    specialFlags (ColumnExtractor.inferTypeFromTsType ts m) = specialFlags m ∧
    genFields (ColumnExtractor.inferTypeFromTsType ts m) = genFields m ∧
    (ColumnExtractor.inferTypeFromTsType ts m).isNullable = m.isNullable := by
  unfold ColumnExtractor.inferTypeFromTsType
  dsimp only
  generalize trimJs (ColumnExtractor.stripNullUndefined ts) = t
  by_cases h : endsWithJs t "[]" = true
  · rw [if_pos h]; exact ⟨rfl, rfl, rfl⟩
  · rw [if_neg h]; exact ⟨rfl, rfl, rfl⟩

lemma applyInference_preserves (ts : String) (m : ColumnMetadata) :
    specialFlags (ColumnExtractor.applyInference ts m) = specialFlags m ∧
    genFields (ColumnExtractor.applyInference ts m) = genFields m ∧
    (ColumnExtractor.applyInference ts m).isNullable = m.isNullable := by
  unfold ColumnExtractor.applyInference
  split
  · exact inferTypeFromTsType_preserves ts m
  · exact ⟨rfl, rfl, rfl⟩

/-- A generated column skips type inference entirely. -/
lemma applyInference_of_generated (ts : String) (m : ColumnMetadata)
    (h : m.isGenerated = true) :
    ColumnExtractor.applyInference ts m = m := by
  unfold ColumnExtractor.applyInference
  simp [h]

/-- A column whose type is no longer `varchar` skips type inference. -/
lemma applyInference_of_type_ne (ts : String) (m : ColumnMetadata)
    (h : (m.type == "varchar") = false) :
    ColumnExtractor.applyInference ts m = m := by
  unfold ColumnExtractor.applyInference
  simp [h]

lemma applyJsDoc_preserves (j : Option String) (m : ColumnMetadata) :
    specialFlags (ColumnExtractor.applyJsDoc j m) = specialFlags m ∧
    genFields (ColumnExtractor.applyJsDoc j m) = genFields m ∧
    (ColumnExtractor.applyJsDoc j m).isNullable = m.isNullable ∧
    (ColumnExtractor.applyJsDoc j m).type = m.type := by
  cases j <;> exact ⟨rfl, rfl, rfl, rfl⟩

lemma specialFlags_applyPrimary (dn : String) (m : ColumnMetadata) :
    specialFlags (ColumnExtractor.applyPrimary dn m) = specialFlags m := by
  unfold ColumnExtractor.applyPrimary
  split <;> rfl

lemma specialFlags_applyGenerated (dn : String) (args : List TsExpr)
    (m : ColumnMetadata) :
    specialFlags (ColumnExtractor.applyGenerated dn args m) = specialFlags m := by
  unfold ColumnExtractor.applyGenerated
  dsimp only
  split
  · cases args with
    | nil => rfl
    | cons a tail =>
      dsimp only
      by_cases h1 : (stripQuotes a.getText == "uuid") = true
      · rw [if_pos h1]; rfl
      rw [if_neg h1]
      by_cases h2 : (stripQuotes a.getText == "increment") = true
      · rw [if_pos h2]; rfl
      rw [if_neg h2]
      by_cases h3 : (stripQuotes a.getText == "rowid") = true
      · rw [if_pos h3]; rfl
      rw [if_neg h3]; rfl
  · rfl

lemma specialFlags_applySpecialDate (dn : String) (m : ColumnMetadata) :
    specialFlags (ColumnExtractor.applySpecialDate dn m) = specialFlags m := by
  unfold ColumnExtractor.applySpecialDate
  split <;> rfl

lemma specialFlags_applyVersion (dn : String) (m : ColumnMetadata) :
    specialFlags (ColumnExtractor.applyVersion dn m) = specialFlags m := by
  unfold ColumnExtractor.applyVersion
  split <;> rfl

lemma specialFlags_stages (dn : String) (args : List TsExpr) (m : ColumnMetadata) :
    specialFlags (ColumnExtractor.applyVersion dn
      (ColumnExtractor.applySpecialDate dn
        (ColumnExtractor.applyGenerated dn args
          (ColumnExtractor.applyPrimary dn m)))) = specialFlags m := by
  rw [specialFlags_applyVersion, specialFlags_applySpecialDate,
    specialFlags_applyGenerated, specialFlags_applyPrimary]

lemma specialFlags_stagedMetadata (dn pname : String) (args : List TsExpr) :
    specialFlags (ColumnExtractor.stagedMetadata dn pname args) =
      specialFlags (ColumnExtractor.initMetadata dn pname) := by
  unfold ColumnExtractor.stagedMetadata
  exact specialFlags_stages dn args _

/-- The value of `extractColumnFromProperty` once the column decorator
has been found. -/
lemma extractColumnFromProperty_eq (p : PropertyDeclaration) (em : EnumsMap)
    (dec : Decorator)
    (hfind : p.decorators.find?
      (fun d => ColumnExtractor.columnDecoratorNames.contains d.name) = some dec) :
    ColumnExtractor.extractColumnFromProperty p em =
      (some (ColumnExtractor.applyJsDoc p.jsDocComment
        (ColumnExtractor.applyInference p.tsTypeText
          (ColumnExtractor.applyOptionArgs dec.args
            (ColumnExtractor.stagedMetadata dec.name p.name dec.args) em).1)),
       (ColumnExtractor.applyOptionArgs dec.args
         (ColumnExtractor.stagedMetadata dec.name p.name dec.args) em).2) := by
  unfold ColumnExtractor.extractColumnFromProperty
  rw [hfind]

/-- The staged metadata of a date-role decorator forces its type and
nullability. -/
lemma stagedMetadata_date_role (dn pname : String) (args : List TsExpr)
    (hdn : dn = "CreateDateColumn" ∨ dn = "UpdateDateColumn" ∨
      dn = "DeleteDateColumn") :
    (ColumnExtractor.stagedMetadata dn pname args).type = "timestamp" ∧
    (ColumnExtractor.stagedMetadata dn pname args).isNullable = false := by
  rcases hdn with rfl | rfl | rfl <;>
    simp [ColumnExtractor.stagedMetadata, ColumnExtractor.applyVersion,
      ColumnExtractor.applySpecialDate, ColumnExtractor.applyGenerated,
      ColumnExtractor.applyPrimary, ColumnExtractor.initMetadata]

/-- The staged metadata of the version decorator forces its type and
nullability. -/
lemma stagedMetadata_version (pname : String) (args : List TsExpr) :
    (ColumnExtractor.stagedMetadata "VersionColumn" pname args).type = "integer" ∧
    (ColumnExtractor.stagedMetadata "VersionColumn" pname args).isNullable = false := by
  simp [ColumnExtractor.stagedMetadata, ColumnExtractor.applyVersion,
    ColumnExtractor.applySpecialDate, ColumnExtractor.applyGenerated,
    ColumnExtractor.applyPrimary, ColumnExtractor.initMetadata]

/-- Claim C5, counterexample:  The options literal is applied after the
special-role forcing, so `@CreateDateColumn(\x7b nullable: true \x7d)` yields a
column with `isCreateDate = true` but `isNullable = true` — the claim
requires `isNullable = false` whenever a special-role flag is set. -/
theorem C5_counterexample_nullable_override :
    ((ColumnExtractor.extractColumnFromProperty exC5Prop []).1.map
      (fun m => (m.isCreateDate, m.isNullable))) = some (true, true) := rfl

/-- Claim C5, amended:  At most one of the special-role flags is ever set
(they are mutually exclusive comparisons of the one decorator name); and
when the decorator carries no options literal, a set special-role flag
forces type timestamp (date roles) or integer (version role) and
`isNullable = false`, regardless of the declared property type.  (The
original claim fails because an options literal can override type and
nullability afterwards.) -/
theorem C5_special_role_invariant (p : PropertyDeclaration) (em em2 : EnumsMap)
    (m : ColumnMetadata) (dec : Decorator)
    (hfind : p.decorators.find?
      (fun d => ColumnExtractor.columnDecoratorNames.contains d.name) = some dec)
    (hx : ColumnExtractor.extractColumnFromProperty p em = (some m, em2)) :
    specialFlagCount m ≤ 1 ∧
    (noObjLit dec.args = true →
      ((m.isCreateDate || m.isUpdateDate || m.isDeleteDate) = true →
        m.type = "timestamp" ∧ m.isNullable = false) ∧
      (m.isVersion = true → m.type = "integer" ∧ m.isNullable = false)) := by
  rw [extractColumnFromProperty_eq p em dec hfind] at hx
  have hm : ColumnExtractor.applyJsDoc p.jsDocComment
      (ColumnExtractor.applyInference p.tsTypeText
        (ColumnExtractor.applyOptionArgs dec.args
          (ColumnExtractor.stagedMetadata dec.name p.name dec.args) em).1) = m :=
    Option.some.inj (congrArg Prod.fst hx)
  have hs : specialFlags m = specialFlags (ColumnExtractor.initMetadata dec.name p.name) := by
    rw [← hm, (applyJsDoc_preserves _ _).1, (applyInference_preserves _ _).1,
      specialFlags_applyOptionArgs, specialFlags_stagedMetadata]
  have h1 : m.isCreateDate = (dec.name == "CreateDateColumn") :=
    congrArg (fun q => q.1) hs
  have h2 : m.isUpdateDate = (dec.name == "UpdateDateColumn") :=
    congrArg (fun q => q.2.1) hs
  have h3 : m.isDeleteDate = (dec.name == "DeleteDateColumn") :=
    congrArg (fun q => q.2.2.1) hs
  have h4 : m.isVersion = (dec.name == "VersionColumn") :=
    congrArg (fun q => q.2.2.2) hs
  constructor
  · unfold specialFlagCount
    rw [h1, h2, h3, h4]
    by_cases hc1 : dec.name = "CreateDateColumn"
    · rw [hc1]; decide
    rw [beq_eq_false_iff_ne.mpr hc1]
    by_cases hc2 : dec.name = "UpdateDateColumn"
    · rw [hc2]; decide
    rw [beq_eq_false_iff_ne.mpr hc2]
    by_cases hc3 : dec.name = "DeleteDateColumn"
    · rw [hc3]; decide
    rw [beq_eq_false_iff_ne.mpr hc3]
    by_cases hc4 : dec.name = "VersionColumn"
    · rw [hc4]; decide
    rw [beq_eq_false_iff_ne.mpr hc4]
    decide
  · intro hno
    have hopts := applyOptionArgs_of_noObjLit dec.args
      (ColumnExtractor.stagedMetadata dec.name p.name dec.args) em hno
    rw [hopts] at hm
    constructor
    · intro hdate
      rw [h1, h2, h3] at hdate
      have hdn : dec.name = "CreateDateColumn" ∨ dec.name = "UpdateDateColumn" ∨
          dec.name = "DeleteDateColumn" := by
        have h := hdate
        simp only [Bool.or_eq_true, beq_iff_eq] at h
        tauto
      have hstage := stagedMetadata_date_role dec.name p.name dec.args hdn
      have hinf : ColumnExtractor.applyInference p.tsTypeText
          (ColumnExtractor.stagedMetadata dec.name p.name dec.args) =
          ColumnExtractor.stagedMetadata dec.name p.name dec.args := by
        refine applyInference_of_type_ne _ _ ?_
        rw [hstage.1]
        decide
      rw [hinf] at hm
      exact ⟨by rw [← hm, (applyJsDoc_preserves _ _).2.2.2, hstage.1],
             by rw [← hm, (applyJsDoc_preserves _ _).2.2.1, hstage.2]⟩
    · intro hver
      rw [h4] at hver
      have hdn : dec.name = "VersionColumn" := by simpa [beq_iff_eq] using hver
      rw [hdn] at hm
      have hstage := stagedMetadata_version p.name dec.args
      have hinf : ColumnExtractor.applyInference p.tsTypeText
          (ColumnExtractor.stagedMetadata "VersionColumn" p.name dec.args) =
          ColumnExtractor.stagedMetadata "VersionColumn" p.name dec.args := by
        refine applyInference_of_type_ne _ _ ?_
        rw [hstage.1]
        decide
      rw [hinf] at hm
      exact ⟨by rw [← hm, (applyJsDoc_preserves _ _).2.2.2, hstage.1],
             by rw [← hm, (applyJsDoc_preserves _ _).2.2.1, hstage.2]⟩

/-- Witness for the amended C5 at a concrete annotation-free create-date
property. -/
theorem C5_special_role_invariant_witness :
    specialFlagCount exC5OkCol ≤ 1 ∧
    (noObjLit ({ name := "CreateDateColumn", args := [] } : Decorator).args = true →
      ((exC5OkCol.isCreateDate || exC5OkCol.isUpdateDate ||
          exC5OkCol.isDeleteDate) = true →
        exC5OkCol.type = "timestamp" ∧ exC5OkCol.isNullable = false) ∧
      (exC5OkCol.isVersion = true →
        exC5OkCol.type = "integer" ∧ exC5OkCol.isNullable = false)) :=
  C5_special_role_invariant exC5OkProp [] [] exC5OkCol
    { name := "CreateDateColumn", args := [] } rfl rfl

lemma pgc_cons_uuid (pname : String) (a : TsExpr) (rest : List TsExpr)
    (h : (stripQuotes a.getText == "uuid") = true) :
    genFields (ColumnExtractor.stagedMetadata "PrimaryGeneratedColumn" pname
      (a :: rest)) = (true, true, some "uuid") ∧
    (ColumnExtractor.stagedMetadata "PrimaryGeneratedColumn" pname
      (a :: rest)).type = "uuid" := by
  constructor <;>
    simp [genFields, ColumnExtractor.stagedMetadata, ColumnExtractor.applyVersion,
      ColumnExtractor.applySpecialDate, ColumnExtractor.applyGenerated,
      ColumnExtractor.applyPrimary, ColumnExtractor.initMetadata, h]

lemma pgc_cons_increment (pname : String) (a : TsExpr) (rest : List TsExpr)
    (h1 : (stripQuotes a.getText == "uuid") = false)
    (h2 : (stripQuotes a.getText == "increment") = true) :
    genFields (ColumnExtractor.stagedMetadata "PrimaryGeneratedColumn" pname
      (a :: rest)) = (true, true, some "increment") ∧
    (ColumnExtractor.stagedMetadata "PrimaryGeneratedColumn" pname
      (a :: rest)).type = "integer" := by
  constructor <;>
    simp [genFields, ColumnExtractor.stagedMetadata, ColumnExtractor.applyVersion,
      ColumnExtractor.applySpecialDate, ColumnExtractor.applyGenerated,
      ColumnExtractor.applyPrimary, ColumnExtractor.initMetadata, h1, h2]

lemma pgc_cons_rowid (pname : String) (a : TsExpr) (rest : List TsExpr)
    (h1 : (stripQuotes a.getText == "uuid") = false)
    (h2 : (stripQuotes a.getText == "increment") = false)
    (h3 : (stripQuotes a.getText == "rowid") = true) :
    genFields (ColumnExtractor.stagedMetadata "PrimaryGeneratedColumn" pname
      (a :: rest)) = (true, true, some "rowid") ∧
    (ColumnExtractor.stagedMetadata "PrimaryGeneratedColumn" pname
      (a :: rest)).type = "integer" := by
  constructor <;>
    simp [genFields, ColumnExtractor.stagedMetadata, ColumnExtractor.applyVersion,
      ColumnExtractor.applySpecialDate, ColumnExtractor.applyGenerated,
      ColumnExtractor.applyPrimary, ColumnExtractor.initMetadata, h1, h2, h3]

lemma pgc_cons_noToken (pname : String) (a : TsExpr) (rest : List TsExpr)
    (h1 : (stripQuotes a.getText == "uuid") = false)
    (h2 : (stripQuotes a.getText == "increment") = false)
    (h3 : (stripQuotes a.getText == "rowid") = false) :
    genFields (ColumnExtractor.stagedMetadata "PrimaryGeneratedColumn" pname
      (a :: rest)) = (true, true, none) := by
  simp [genFields, ColumnExtractor.stagedMetadata, ColumnExtractor.applyVersion,
    ColumnExtractor.applySpecialDate, ColumnExtractor.applyGenerated,
    ColumnExtractor.applyPrimary, ColumnExtractor.initMetadata, h1, h2, h3]

/-- The staged metadata of a primary-generated column always has
`isPrimary` and `isGenerated` set. -/
lemma pgc_staged_genFields (pname : String) (args : List TsExpr) :
    ∃ st : Option String,
      genFields (ColumnExtractor.stagedMetadata "PrimaryGeneratedColumn" pname
        args) = (true, true, st) := by
  cases args with
  | nil => exact ⟨some "increment", rfl⟩
  | cons a rest =>
    by_cases h1 : (stripQuotes a.getText == "uuid") = true
    · exact ⟨some "uuid", (pgc_cons_uuid pname a rest h1).1⟩
    by_cases h2 : (stripQuotes a.getText == "increment") = true
    · exact ⟨some "increment",
        (pgc_cons_increment pname a rest (eq_false_of_ne_true h1) h2).1⟩
    by_cases h3 : (stripQuotes a.getText == "rowid") = true
    · exact ⟨some "rowid", (pgc_cons_rowid pname a rest (eq_false_of_ne_true h1)
        (eq_false_of_ne_true h2) h3).1⟩
    exact ⟨none, pgc_cons_noToken pname a rest (eq_false_of_ne_true h1)
      (eq_false_of_ne_true h2) (eq_false_of_ne_true h3)⟩

/-- Claim C6, counterexample:  `@PrimaryGeneratedColumn(\x7b ... \x7d)` (an
options-literal first argument, no strategy token) produces a generated
column with *no* `generationStrategy` and type left at `varchar`: the
increment default applies only when the argument list is empty, so the
claim that every primary-generated column has a generation strategy
fails. -/
theorem C6_counterexample_options_only :
    ((ColumnExtractor.extractColumnFromProperty exC6Prop []).1.map
      (fun m => (m.isGenerated, m.generationStrategy, m.type))) =
      some (true, none, "varchar") := rfl

/-- Claim C6, amended:  A primary-generated column always has
`isPrimary = true` and `isGenerated = true`; the strategy defaults to
increment (with type integer) only when the argument list is empty; a
first argument `uuid`/`increment`/`rowid` sets that strategy (and the
corresponding type, unless an options literal overrides it); any other
first argument — including an options literal — leaves
`generationStrategy` unset. -/
theorem C6_primary_generated (p : PropertyDeclaration) (em em2 : EnumsMap)
    (m : ColumnMetadata) (dec : Decorator)
    (hfind : p.decorators.find?
      (fun d => ColumnExtractor.columnDecoratorNames.contains d.name) = some dec)
    (hdn : dec.name = "PrimaryGeneratedColumn")
    (hx : ColumnExtractor.extractColumnFromProperty p em = (some m, em2)) :
    (m.isPrimary = true ∧ m.isGenerated = true) ∧
    (dec.args = [] → m.generationStrategy = some "increment" ∧ m.type = "integer") ∧
    (∀ a rest, dec.args = a :: rest →
      (stripQuotes a.getText = "uuid" → m.generationStrategy = some "uuid" ∧
        (noObjLit dec.args = true → m.type = "uuid")) ∧
      (stripQuotes a.getText = "increment" →
        m.generationStrategy = some "increment" ∧
        (noObjLit dec.args = true → m.type = "integer")) ∧
      (stripQuotes a.getText = "rowid" → m.generationStrategy = some "rowid" ∧
        (noObjLit dec.args = true → m.type = "integer")) ∧
      ((stripQuotes a.getText ≠ "uuid" ∧ stripQuotes a.getText ≠ "increment" ∧
        stripQuotes a.getText ≠ "rowid") → m.generationStrategy = none)) := by
  rw [extractColumnFromProperty_eq p em dec hfind] at hx
  have hm : ColumnExtractor.applyJsDoc p.jsDocComment
      (ColumnExtractor.applyInference p.tsTypeText
        (ColumnExtractor.applyOptionArgs dec.args
          (ColumnExtractor.stagedMetadata dec.name p.name dec.args) em).1) = m :=
    Option.some.inj (congrArg Prod.fst hx)
  rw [hdn] at hm
  have hg : genFields m = genFields
      (ColumnExtractor.stagedMetadata "PrimaryGeneratedColumn" p.name dec.args) := by
    rw [← hm, (applyJsDoc_preserves _ _).2.1, (applyInference_preserves _ _).2.1,
      genFields_applyOptionArgs]
  obtain ⟨st, hst⟩ := pgc_staged_genFields p.name dec.args
  have hgen : (ColumnExtractor.stagedMetadata "PrimaryGeneratedColumn" p.name
      dec.args).isGenerated = true := congrArg (fun q => q.2.1) hst
  have htypeTransfer : noObjLit dec.args = true →
      m.type = (ColumnExtractor.stagedMetadata "PrimaryGeneratedColumn" p.name
        dec.args).type := by
    intro hno
    have hopts := applyOptionArgs_of_noObjLit dec.args
      (ColumnExtractor.stagedMetadata "PrimaryGeneratedColumn" p.name dec.args)
      em hno
    rw [hopts] at hm
    have hinf := applyInference_of_generated p.tsTypeText
      (ColumnExtractor.stagedMetadata "PrimaryGeneratedColumn" p.name dec.args)
      hgen
    rw [hinf] at hm
    rw [← hm, (applyJsDoc_preserves _ _).2.2.2]
  have hgm : genFields m = (true, true, st) := hg.trans hst
  refine ⟨⟨congrArg (fun q => q.1) hgm, congrArg (fun q => q.2.1) hgm⟩, ?_, ?_⟩
  · intro hnil
    rw [hnil] at hg htypeTransfer
    refine ⟨congrArg (fun q => q.2.2) (hg.trans rfl), ?_⟩
    exact (htypeTransfer rfl).trans rfl
  · intro a rest hcons
    rw [hcons] at hg
    have htt : noObjLit dec.args = true →
        m.type = (ColumnExtractor.stagedMetadata "PrimaryGeneratedColumn" p.name
          (a :: rest)).type := by
      intro hno
      exact (htypeTransfer hno).trans
        (congrArg (fun l => (ColumnExtractor.stagedMetadata "PrimaryGeneratedColumn"
          p.name l).type) hcons)
    refine ⟨?_, ?_, ?_, ?_⟩
    · intro hu
      have hb : (stripQuotes a.getText == "uuid") = true := beq_iff_eq.mpr hu
      have hlem := pgc_cons_uuid p.name a rest hb
      exact ⟨congrArg (fun q => q.2.2) (hg.trans hlem.1),
             fun hno => (htt hno).trans hlem.2⟩
    · intro hi
      by_cases h1 : (stripQuotes a.getText == "uuid") = true
      · exact absurd (beq_iff_eq.mp h1) (by rw [hi]; decide)
      have hb : (stripQuotes a.getText == "increment") = true := beq_iff_eq.mpr hi
      have hlem := pgc_cons_increment p.name a rest (eq_false_of_ne_true h1) hb
      exact ⟨congrArg (fun q => q.2.2) (hg.trans hlem.1),
             fun hno => (htt hno).trans hlem.2⟩
    · intro hr
      by_cases h1 : (stripQuotes a.getText == "uuid") = true
      · exact absurd (beq_iff_eq.mp h1) (by rw [hr]; decide)
      by_cases h2 : (stripQuotes a.getText == "increment") = true
      · exact absurd (beq_iff_eq.mp h2) (by rw [hr]; decide)
      have hb : (stripQuotes a.getText == "rowid") = true := beq_iff_eq.mpr hr
      have hlem := pgc_cons_rowid p.name a rest (eq_false_of_ne_true h1)
        (eq_false_of_ne_true h2) hb
      exact ⟨congrArg (fun q => q.2.2) (hg.trans hlem.1),
             fun hno => (htt hno).trans hlem.2⟩
    · intro hne
      have hlem := pgc_cons_noToken p.name a rest
        (beq_eq_false_iff_ne.mpr hne.1) (beq_eq_false_iff_ne.mpr hne.2.1)
        (beq_eq_false_iff_ne.mpr hne.2.2)
      exact congrArg (fun q => q.2.2) (hg.trans hlem)

/-- Witness for the amended C6 at a concrete uuid-strategy column. -/
theorem C6_primary_generated_witness :
    (exC6OkCol.isPrimary = true ∧ exC6OkCol.isGenerated = true) ∧
    exC6OkCol.generationStrategy = some "uuid" ∧ exC6OkCol.type = "uuid" := by
  have h := C6_primary_generated exC6OkProp [] [] exC6OkCol
    { name := "PrimaryGeneratedColumn", args := [.strLit "uuid"] } rfl rfl rfl
  refine ⟨h.1, ?_, ?_⟩
  · exact ((h.2.2 (.strLit "uuid") [] rfl).1 (by decide)).1
  · exact ((h.2.2 (.strLit "uuid") [] rfl).1 (by decide)).2 rfl

/-- Entries added by `extractEnumMetadata` come from its enum symbol. -/
lemma extractEnumMetadata_entries (sym : Option EnumSymbol) (m : ColumnMetadata)
    (em : EnumsMap) :
    ∀ kv ∈ (ColumnExtractor.extractEnumMetadata sym m em).2,
      kv ∈ em ∨ ∃ s, sym = some s ∧ registeredEnumEntry s = some kv := by
  intro kv hkv
  cases sym with
  | none => exact Or.inl hkv
  | some s =>
    obtain ⟨sname, sdecls⟩ := s
    unfold ColumnExtractor.extractEnumMetadata at hkv
    dsimp only at hkv
    by_cases hhas : EnumsMap.hasKey em sname = true
    · rw [if_pos hhas] at hkv
      exact Or.inl hkv
    rw [if_neg hhas] at hkv
    cases sdecls with
    | nil => exact Or.inl hkv
    | cons d tail =>
      cases d with
      | enumDecl members =>
        dsimp only [EnumsMap.append1] at hkv
        rcases List.mem_append.mp hkv with h | h
        · exact Or.inl h
        · refine Or.inr ⟨⟨sname, .enumDecl members :: tail⟩, rfl, ?_⟩
          rw [List.mem_singleton.mp h]
          rfl
      | otherDecl => exact Or.inl hkv

/-- Entries added by one option assignment come from its enum symbol. -/
lemma applyColumnOption_entries (acc : ColumnMetadata × EnumsMap)
    (p : String × TsExpr × Option EnumSymbol) :
    ∀ kv ∈ (ColumnExtractor.applyColumnOption acc p).2,
      kv ∈ acc.2 ∨ ∃ s, p.2.2 = some s ∧ registeredEnumEntry s = some kv := by
  intro kv hkv
  unfold ColumnExtractor.applyColumnOption at hkv
  dsimp only at hkv
  by_cases h1 : (p.1 == "type") = true
  · rw [if_pos h1] at hkv; exact Or.inl hkv
  rw [if_neg h1] at hkv
  by_cases h2 : (p.1 == "name") = true
  · rw [if_pos h2] at hkv; exact Or.inl hkv
  rw [if_neg h2] at hkv
  by_cases h3 : (p.1 == "length") = true
  · rw [if_pos h3] at hkv; exact Or.inl hkv
  rw [if_neg h3] at hkv
  by_cases h4 : (p.1 == "precision") = true
  · rw [if_pos h4] at hkv; exact Or.inl hkv
  rw [if_neg h4] at hkv
  by_cases h5 : (p.1 == "scale") = true
  · rw [if_pos h5] at hkv; exact Or.inl hkv
  rw [if_neg h5] at hkv
  by_cases h6 : (p.1 == "nullable") = true
  · rw [if_pos h6] at hkv; exact Or.inl hkv
  rw [if_neg h6] at hkv
  by_cases h7 : (p.1 == "unique") = true
  · rw [if_pos h7] at hkv; exact Or.inl hkv
  rw [if_neg h7] at hkv
  by_cases h8 : (p.1 == "default") = true
  · rw [if_pos h8] at hkv; exact Or.inl hkv
  rw [if_neg h8] at hkv
  by_cases h9 : (p.1 == "comment") = true
  · rw [if_pos h9] at hkv; exact Or.inl hkv
  rw [if_neg h9] at hkv
  by_cases h10 : (p.1 == "array") = true
  · rw [if_pos h10] at hkv; exact Or.inl hkv
  rw [if_neg h10] at hkv
  by_cases h11 : (p.1 == "enum") = true
  · rw [if_pos h11] at hkv
    exact extractEnumMetadata_entries p.2.2 acc.1 acc.2 kv hkv
  rw [if_neg h11] at hkv
  exact Or.inl hkv

/-- Entries added over a whole options object come from its symbols. -/
lemma foldOptions_entries (props : List (String × TsExpr × Option EnumSymbol))
    (acc : ColumnMetadata × EnumsMap) :
    ∀ kv ∈ (props.foldl ColumnExtractor.applyColumnOption acc).2,
      kv ∈ acc.2 ∨ ∃ s ∈ props.filterMap (fun p => p.2.2),
        registeredEnumEntry s = some kv := by
  induction props generalizing acc with
  | nil => exact fun kv hkv => Or.inl hkv
  | cons p ps ih =>
    intro kv hkv
    rw [List.foldl_cons] at hkv
    rcases ih (ColumnExtractor.applyColumnOption acc p) kv hkv with h | ⟨s, hs, hr⟩
    · rcases applyColumnOption_entries acc p kv h with h2 | ⟨s, hs, hr⟩
      · exact Or.inl h2
      · refine Or.inr ⟨s, ?_, hr⟩
        simp [List.filterMap_cons, hs]
    · refine Or.inr ⟨s, ?_, hr⟩
      cases hps : p.2.2 <;> simp [List.filterMap_cons, hps, hs]

/-- Entries added over a decorator's arguments come from its symbols. -/
lemma applyOptionArgs_entries (args : List TsExpr) (m : ColumnMetadata)
    (em : EnumsMap) :
    ∀ kv ∈ (ColumnExtractor.applyOptionArgs args m em).2,
      kv ∈ em ∨ ∃ s ∈ (args.map propEnumSyms).flatten,
        registeredEnumEntry s = some kv := by
  unfold ColumnExtractor.applyOptionArgs
  generalize hacc : ((m, em) : ColumnMetadata × EnumsMap) = acc
  have hm : em = acc.2 := by rw [← hacc]
  rw [hm]
  clear hacc hm
  induction args generalizing acc with
  | nil => exact fun kv hkv => Or.inl hkv
  | cons a rest ih =>
    intro kv hkv
    rw [List.foldl_cons] at hkv
    cases a with
    | objLit t props =>
      rcases ih _ kv hkv with h | ⟨s, hs, hr⟩
      · rcases foldOptions_entries props acc kv h with h2 | ⟨s, hs, hr⟩
        · exact Or.inl h2
        · refine Or.inr ⟨s, ?_, hr⟩
          simp only [List.map_cons, List.flatten_cons, List.mem_append]
          exact Or.inl (by simpa [propEnumSyms] using hs)
      · refine Or.inr ⟨s, ?_, hr⟩
        simp only [List.map_cons, List.flatten_cons, List.mem_append]
        exact Or.inr hs
    | strLit v =>
      rcases ih _ kv hkv with h | ⟨s, hs, hr⟩
      · exact Or.inl h
      · exact Or.inr ⟨s, by simpa [propEnumSyms] using hs, hr⟩
    | arrLit t es =>
      rcases ih _ kv hkv with h | ⟨s, hs, hr⟩
      · exact Or.inl h
      · exact Or.inr ⟨s, by simpa [propEnumSyms] using hs, hr⟩
    | arrowFn b =>
      rcases ih _ kv hkv with h | ⟨s, hs, hr⟩
      · exact Or.inl h
      · exact Or.inr ⟨s, by simpa [propEnumSyms] using hs, hr⟩
    | other t =>
      rcases ih _ kv hkv with h | ⟨s, hs, hr⟩
      · exact Or.inl h
      · exact Or.inr ⟨s, by simpa [propEnumSyms] using hs, hr⟩

/-- Entries added while extracting one property's column come from the
property's symbols. -/
lemma extractColumnFromProperty_entries (p : PropertyDeclaration) (em : EnumsMap) :
    ∀ kv ∈ (ColumnExtractor.extractColumnFromProperty p em).2,
      kv ∈ em ∨ ∃ s ∈ propertyEnumSyms p, registeredEnumEntry s = some kv := by
  intro kv hkv
  cases hfind : p.decorators.find?
      (fun d => ColumnExtractor.columnDecoratorNames.contains d.name) with
  | none =>
    unfold ColumnExtractor.extractColumnFromProperty at hkv
    rw [hfind] at hkv
    exact Or.inl hkv
  | some dec =>
    rw [extractColumnFromProperty_eq p em dec hfind] at hkv
    dsimp only at hkv
    rcases applyOptionArgs_entries dec.args
        (ColumnExtractor.stagedMetadata dec.name p.name dec.args) em kv hkv with
      h | ⟨s, hs, hr⟩
    · exact Or.inl h
    · refine Or.inr ⟨s, ?_, hr⟩
      unfold propertyEnumSyms
      rw [List.mem_flatten]
      exact ⟨(dec.args.map propEnumSyms).flatten,
        List.mem_map.mpr ⟨dec, List.mem_of_find?_eq_some hfind, rfl⟩, hs⟩

/-- Entries added while extracting a class's columns come from the
class's symbols. -/
lemma colStep_fold_entries (ps : List PropertyDeclaration)
    (acc : List ColumnMetadata × EnumsMap) :
    ∀ kv ∈ (ps.foldl ColumnExtractor.colStep acc).2,
      kv ∈ acc.2 ∨ ∃ s ∈ (ps.map propertyEnumSyms).flatten,
        registeredEnumEntry s = some kv := by
  induction ps generalizing acc with
  | nil => exact fun kv hkv => Or.inl hkv
  | cons p ps ih =>
    intro kv hkv
    rw [List.foldl_cons] at hkv
    have hstep : ∀ kv2 ∈ (ColumnExtractor.colStep acc p).2,
        kv2 ∈ acc.2 ∨ ∃ s ∈ propertyEnumSyms p, registeredEnumEntry s = some kv2 := by
      intro kv2 hkv2
      have heq : (ColumnExtractor.colStep acc p).2 =
          (ColumnExtractor.extractColumnFromProperty p acc.2).2 := by
        unfold ColumnExtractor.colStep
        rcases hx : ColumnExtractor.extractColumnFromProperty p acc.2 with ⟨c, em2⟩
        cases c <;> simp
      rw [heq] at hkv2
      exact extractColumnFromProperty_entries p acc.2 kv2 hkv2
    rcases ih (ColumnExtractor.colStep acc p) kv hkv with h | ⟨s, hs, hr⟩
    · rcases hstep kv h with h2 | ⟨s, hs, hr⟩
      · exact Or.inl h2
      · exact Or.inr ⟨s, by simp only [List.map_cons, List.flatten_cons,
          List.mem_append]; exact Or.inl hs, hr⟩
    · exact Or.inr ⟨s, by simp only [List.map_cons, List.flatten_cons,
        List.mem_append]; exact Or.inr hs, hr⟩

/-- Entries added while extracting one entity come from the class. -/
lemma extractEntityMetadata_entries (cls : ClassDeclaration) (em : EnumsMap) :
    ∀ kv ∈ (MetadataExtractor.extractEntityMetadata cls em).2,
      kv ∈ em ∨ ∃ s ∈ classEnumSyms cls, registeredEnumEntry s = some kv := by
  intro kv hkv
  have : (MetadataExtractor.extractEntityMetadata cls em).2 =
      (ColumnExtractor.extractColumns cls em).2 := rfl
  rw [this] at hkv
  unfold ColumnExtractor.extractColumns at hkv
  exact colStep_fold_entries cls.properties ([], em) kv hkv

/-- Entries in the final registry of a batch come from the batch. -/
lemma entStep_fold_entries (entities : List ClassDeclaration)
    (acc : List EntityMetadata × EnumsMap) :
    ∀ kv ∈ (entities.foldl MetadataExtractor.entStep acc).2,
      kv ∈ acc.2 ∨ ∃ cls ∈ entities, ∃ s ∈ classEnumSyms cls,
        registeredEnumEntry s = some kv := by
  induction entities generalizing acc with
  | nil => exact fun kv hkv => Or.inl hkv
  | cons cls rest ih =>
    intro kv hkv
    rw [List.foldl_cons] at hkv
    rcases ih (MetadataExtractor.entStep acc cls) kv hkv with h | ⟨c, hc, s, hs, hr⟩
    · rcases extractEntityMetadata_entries cls acc.2 kv h with h2 | ⟨s, hs, hr⟩
      · exact Or.inl h2
      · exact Or.inr ⟨cls, List.mem_cons_self cls rest, s, hs, hr⟩
    · exact Or.inr ⟨c, List.mem_cons_of_mem cls hc, s, hs, hr⟩

/-- Claim C9:  The enum-deduplication registry does not leak between
sequential generation invocations: each call constructs a fresh empty
registry (the second schema is independent of the first input), and
every enum in the second schema's enum list was registered from an enum
symbol reachable in the second invocation's own input entities. -/
theorem C9_enum_registry_scoped (es1 es2 : List ClassDeclaration) :
    (MetadataExtractor.generateSchemaTwice es1 es2).2 =
      MetadataExtractor.extractMetadata es2 ∧
    ∀ emeta ∈ (MetadataExtractor.extractMetadata es2).enums,
      ∃ cls ∈ es2, ∃ sym ∈ classEnumSyms cls, ∃ k,
        registeredEnumEntry sym = some (k, emeta) := by
  refine ⟨rfl, ?_⟩
  intro emeta hmem
  have hmem2 : emeta ∈ EnumsMap.valuesList
      (es2.foldl MetadataExtractor.entStep (([] : List EntityMetadata), [])).2 := hmem
  unfold EnumsMap.valuesList at hmem2
  obtain ⟨kv, hkv, hkv2⟩ := List.mem_map.mp hmem2
  rcases entStep_fold_entries es2 ([], []) kv hkv with h | ⟨cls, hc, s, hs, hr⟩
  · exact absurd h (List.not_mem_nil kv)
  · refine ⟨cls, hc, s, hs, kv.1, ?_⟩
    rw [hr]
    rw [← hkv2]

/-- Witness for C9 at a concrete second invocation holding one
enum-typed column. -/
theorem C9_enum_registry_scoped_witness :
    (MetadataExtractor.generateSchemaTwice [] [exC9Cls]).2 =
      MetadataExtractor.extractMetadata [exC9Cls] ∧
    (∃ cls ∈ [exC9Cls], ∃ sym ∈ classEnumSyms cls, ∃ k,
      registeredEnumEntry sym =
        some (k, { name := "user_role", values := ["admin", "USER"] })) :=
  ⟨(C9_enum_registry_scoped [] [exC9Cls]).1,
   (C9_enum_registry_scoped [] [exC9Cls]).2
     { name := "user_role", values := ["admin", "USER"] } (by decide)⟩

end TypeormDbml
